import Mathlib

/-!
Verification development for the FCC physics-events import/merge engine.

The definitions below are a shallow embedding of the Python sources:

  * `backend/app/utils/uuid_utils.py`            (deterministic dataset UUIDs)
  * `backend/app/storage/database_modules/data_import.py`
                                                 (batch import orchestrator,
                                                  metadata merge policy,
                                                  navigation-entity resolution,
                                                  get-or-create with race recovery)
  * `backend/app/storage/json_data_parser.py`    (input collection shape detection)

Python dictionaries are embedded as association lists with distinct keys,
Python strings as Lean `String` values compared through their character
lists (so that everything evaluates inside the kernel), and database /
network effects as explicit environment parameters describing the outcome
of each external call.
-/

/-! ## String-order utilities

Python `sorted` on `str` compares strings lexicographically by code point.
We embed that order on the underlying character lists so that it is
executable and provable. -/

/-- Lexicographic (code-point) order on character lists, mirroring Python
string comparison used by `sorted(foreign_key_ids.keys())`. -/
def charListLe : List Char → List Char → Bool
  | [], _ => true
  | _ :: _, [] => false
  | a :: as, b :: bs =>
    if a < b then true
    else if b < a then false
    else charListLe as bs

theorem charListLe_total : ∀ a b : List Char, charListLe a b = true ∨ charListLe b a = true := by
  intro a
  induction a with
  | nil => intro b; left; rfl
  | cons x xs ih =>
    intro b
    cases b with
    | nil => right; rfl
    | cons y ys =>
      simp only [charListLe]
      rcases lt_trichotomy x y with h | h | h
      · left; simp [h]
      · subst h
        simp only [lt_irrefl, if_false]
        exact ih ys
      · right; simp [h]

theorem charListLe_trans :
    ∀ a b c : List Char, charListLe a b = true → charListLe b c = true →
      charListLe a c = true := by
  intro a
  induction a with
  | nil => intro b c _ _; rfl
  | cons x xs ih =>
    intro b c hab hbc
    cases b with
    | nil => simp [charListLe] at hab
    | cons y ys =>
      cases c with
      | nil => simp [charListLe] at hbc
      | cons z zs =>
        simp only [charListLe] at hab hbc ⊢
        rcases lt_trichotomy x y with hxy | hxy | hxy
        · rcases lt_trichotomy y z with hyz | hyz | hyz
          · have hxz : x < z := lt_trans hxy hyz
            simp [hxz]
          · subst hyz
            simp [hxy]
          · have h1 : ¬ y < z := asymm hyz
            simp [h1, hyz] at hbc
        · subst hxy
          have h1 : ¬ x < x := lt_irrefl x
          simp only [h1, if_false] at hab
          rcases lt_trichotomy x z with hxz | hxz | hxz
          · simp [hxz]
          · subst hxz
            simp only [h1, if_false] at hbc ⊢
            exact ih ys zs hab hbc
          · have h2 : ¬ x < z := asymm hxz
            simp [h2, hxz] at hbc
        · have h1 : ¬ x < y := asymm hxy
          simp [h1, hxy] at hab

theorem charListLe_antisymm :
    ∀ a b : List Char, charListLe a b = true → charListLe b a = true → a = b := by
  intro a
  induction a with
  | nil =>
    intro b _ hba
    cases b with
    | nil => rfl
    | cons y ys => simp [charListLe] at hba
  | cons x xs ih =>
    intro b hab hba
    cases b with
    | nil => simp [charListLe] at hab
    | cons y ys =>
      simp only [charListLe] at hab hba
      rcases lt_trichotomy x y with hxy | hxy | hxy
      · have h1 : ¬ y < x := asymm hxy
        simp [h1, hxy] at hba
      · subst hxy
        have h1 : ¬ x < x := lt_irrefl x
        simp only [h1, if_false] at hab hba
        rw [ih ys hab hba]
      · have h1 : ¬ x < y := asymm hxy
        simp [h1, hxy] at hab

/-- Python string comparison, as a `Prop`-valued relation on `String`. -/
def keyLe (a b : String) : Prop := charListLe a.data b.data = true

instance : DecidableRel keyLe := fun a b =>
  inferInstanceAs (Decidable (charListLe a.data b.data = true))

instance : IsTotal String keyLe := ⟨fun a b => charListLe_total a.data b.data⟩

instance : IsTrans String keyLe :=
  ⟨fun a b c hab hbc => charListLe_trans a.data b.data c.data hab hbc⟩

instance : IsAntisymm String keyLe := by
  refine ⟨fun a b hab hba => ?_⟩
  have h := charListLe_antisymm a.data b.data hab hba
  cases a; cases b
  exact congrArg String.mk h

/-- Order on foreign-key entries by key name only (used to restate the
spec wording "sort the foreign-key entries by key name"). -/
def entryLe (a b : String × Option Int) : Prop := keyLe a.1 b.1

instance : DecidableRel entryLe := fun a b =>
  inferInstanceAs (Decidable (keyLe a.1 b.1))

instance : IsTotal (String × Option Int) entryLe :=
  ⟨fun a b => IsTotal.total (r := keyLe) a.1 b.1⟩

instance : IsTrans (String × Option Int) entryLe :=
  ⟨fun _ _ _ hab hbc => Trans.trans (r := keyLe) (s := keyLe) hab hbc⟩

/-! ## UUID deriver (`backend/app/utils/uuid_utils.py`, `generate_dataset_uuid`)

`uuid.uuid5(ENTITY_UUID_NAMESPACE, name)` is a deterministic pure function
of its input string; we abstract it (namespace baked in) as a parameter
`uuid5 : String → String`, and embed the canonical-string construction of
`generate_dataset_uuid` exactly. -/

/-- Rendering of one foreign-key value inside `generate_dataset_uuid`:
`str(value)` for an integer and the literal sentinel "0" for Python `None`. -/
def renderFkValue : Option Int → String
  | some v => toString v
  | none => "0"

/-- Canonical string built by `generate_dataset_uuid` before hashing:
sort the key names, render each value looked up by key, join with commas,
and prefix with the dataset name and a comma. -/
def generate_dataset_uuid_input (dataset_name : String)
    (foreign_key_ids : List (String × Option Int)) : String :=
  dataset_name ++ "," ++
    String.intercalate ","
      ((List.insertionSort keyLe (foreign_key_ids.map Prod.fst)).map
        (fun key => renderFkValue ((foreign_key_ids.lookup key).getD none)))

/-- Embedding of `generate_dataset_uuid`: the UUID5 hash (namespace fixed)
of the canonical string. -/
def generate_dataset_uuid (uuid5 : String → String) (dataset_name : String)
    (foreign_key_ids : List (String × Option Int)) : String :=
  uuid5 (generate_dataset_uuid_input dataset_name foreign_key_ids)

/-- Restatement of the canonical string following the specification wording
for claim C1: sort the foreign-key entries by key name, render each value as
its decimal string or "0" for null, join them with commas, and prefix the
dataset name with a comma separator. -/
def specCanonicalUuidInput (dataset_name : String)
    (foreign_key_ids : List (String × Option Int)) : String :=
  dataset_name ++ "," ++
    String.intercalate ","
      ((List.insertionSort entryLe foreign_key_ids).map (fun e => renderFkValue e.2))

/-! ### Lemmas about lookups and sorting used for claim C1 -/

/-- Looking a key up in an association list with distinct keys finds exactly
the value paired with it. -/
theorem lookup_eq_of_nodup_mem {β : Type} :
    ∀ (l : List (String × β)) (k : String) (v : β),
      (l.map Prod.fst).Nodup → (k, v) ∈ l → l.lookup k = some v := by
  intro l
  induction l with
  | nil => intro k v _ h; simp at h
  | cons hd tl ih =>
    intro k v hnd hmem
    obtain ⟨p, q⟩ := hd
    simp only [List.map_cons, List.nodup_cons] at hnd
    rcases List.mem_cons.mp hmem with heq | htl
    · injection heq with h1 h2
      subst h1; subst h2
      simp [List.lookup]
    · have hk : k ≠ p := by
        intro h
        subst h
        exact hnd.1 (List.mem_map.mpr ⟨(k, v), htl, rfl⟩)
      have hbeq : (k == p) = false := beq_eq_false_iff_ne.mpr hk
      simp only [List.lookup, hbeq]
      exact ih k v hnd.2 htl

/-- Sorting the entries by key and then projecting out the keys is the same
as sorting the keys. -/
theorem mapfst_insertionSort_entries (l : List (String × Option Int)) :
    (List.insertionSort entryLe l).map Prod.fst
      = List.insertionSort keyLe (l.map Prod.fst) := by
  apply List.eq_of_perm_of_sorted (r := keyLe)
  · exact ((List.perm_insertionSort entryLe l).map Prod.fst).trans
      (List.perm_insertionSort keyLe (l.map Prod.fst)).symm
  · exact List.Pairwise.map Prod.fst (fun a b h => h)
      (List.sorted_insertionSort entryLe l)
  · exact List.sorted_insertionSort keyLe (l.map Prod.fst)

/-- With distinct key names, the canonical string of the source coincides
with the specification wording (sorting whole entries by key). -/
theorem generate_dataset_uuid_input_eq_spec (name : String)
    (fks : List (String × Option Int)) (hnd : (fks.map Prod.fst).Nodup) :
    generate_dataset_uuid_input name fks = specCanonicalUuidInput name fks := by
  unfold generate_dataset_uuid_input specCanonicalUuidInput
  rw [← mapfst_insertionSort_entries fks, List.map_map]
  have hmaps :
      (List.insertionSort entryLe fks).map
          ((fun key => renderFkValue ((fks.lookup key).getD none)) ∘ Prod.fst)
        = (List.insertionSort entryLe fks).map (fun e => renderFkValue e.2) := by
    apply List.map_congr_left
    intro e he
    have hmem : e ∈ fks := (List.perm_insertionSort entryLe fks).mem_iff.mp he
    have hlk : fks.lookup e.1 = some e.2 :=
      lookup_eq_of_nodup_mem fks e.1 e.2 hnd (by cases e; exact hmem)
    simp [Function.comp, hlk]
  rw [hmaps]

/-- Permuting the foreign-key mapping does not change the canonical string,
provided the key names are distinct. -/
theorem generate_dataset_uuid_input_perm (name : String)
    (fks1 fks2 : List (String × Option Int))
    (hnd : (fks1.map Prod.fst).Nodup) (hperm : fks1.Perm fks2) :
    generate_dataset_uuid_input name fks2 = generate_dataset_uuid_input name fks1 := by
  unfold generate_dataset_uuid_input
  have hnd2 : (fks2.map Prod.fst).Nodup := ((hperm.map Prod.fst).nodup_iff).mp hnd
  have hkeys : List.insertionSort keyLe (fks2.map Prod.fst)
      = List.insertionSort keyLe (fks1.map Prod.fst) := by
    apply List.eq_of_perm_of_sorted (r := keyLe)
    · exact (List.perm_insertionSort keyLe _).trans
        (((hperm.map Prod.fst).symm).trans (List.perm_insertionSort keyLe _).symm)
    · exact List.sorted_insertionSort keyLe _
    · exact List.sorted_insertionSort keyLe _
  rw [hkeys]
  have hmaps :
      (List.insertionSort keyLe (fks1.map Prod.fst)).map
          (fun key => renderFkValue ((fks2.lookup key).getD none))
        = (List.insertionSort keyLe (fks1.map Prod.fst)).map
          (fun key => renderFkValue ((fks1.lookup key).getD none)) := by
    apply List.map_congr_left
    intro k hk
    have hk1 : k ∈ fks1.map Prod.fst :=
      (List.perm_insertionSort keyLe (fks1.map Prod.fst)).mem_iff.mp hk
    obtain ⟨e, hmem, hfst⟩ := List.mem_map.mp hk1
    obtain ⟨k0, v⟩ := e
    cases hfst
    have h1 : fks1.lookup k0 = some v := lookup_eq_of_nodup_mem fks1 k0 v hnd hmem
    have h2 : fks2.lookup k0 = some v :=
      lookup_eq_of_nodup_mem fks2 k0 v hnd2 (hperm.mem_iff.mp hmem)
    rw [h1, h2]
  rw [hmaps]

/-- C1: `generate_dataset_uuid` returns the UUID5 hash (under the fixed
namespace, abstracted as the parameter `uuid5`) of the canonical string
described by the spec: sort the foreign-key entries by key name, render each
value as its decimal string or "0" for null, join with commas, and prefix
the dataset name with a comma separator.  Deriving twice on the same inputs
yields identical results, and permuting the mapping never changes the
result. -/
theorem C1_uuid_canonical_sorted_deterministic (uuid5 : String → String)
    (name : String) (fks1 fks2 : List (String × Option Int))
    (hnd : (fks1.map Prod.fst).Nodup) (hperm : fks1.Perm fks2) :
    generate_dataset_uuid uuid5 name fks1 = uuid5 (specCanonicalUuidInput name fks1)
      ∧ generate_dataset_uuid uuid5 name fks1 = generate_dataset_uuid uuid5 name fks1
      ∧ generate_dataset_uuid uuid5 name fks2 = generate_dataset_uuid uuid5 name fks1 := by
  refine ⟨?_, rfl, ?_⟩
  · unfold generate_dataset_uuid
    rw [generate_dataset_uuid_input_eq_spec name fks1 hnd]
  · unfold generate_dataset_uuid
    rw [generate_dataset_uuid_input_perm name fks1 fks2 hnd hperm]

/-- Witness for C1 at a concrete input: two foreign keys given in the two
possible iteration orders. -/
theorem C1_uuid_canonical_sorted_deterministic_witness :
    (([("campaign_id", (some 7 : Option Int)), ("accelerator_id", none)].map Prod.fst).Nodup
      ∧ List.Perm [("campaign_id", (some 7 : Option Int)), ("accelerator_id", none)]
          [("accelerator_id", (none : Option Int)), ("campaign_id", some 7)])
      ∧ (generate_dataset_uuid id "higgs"
            [("campaign_id", (some 7 : Option Int)), ("accelerator_id", none)]
          = id (specCanonicalUuidInput "higgs"
            [("campaign_id", (some 7 : Option Int)), ("accelerator_id", none)])
        ∧ generate_dataset_uuid id "higgs"
            [("campaign_id", (some 7 : Option Int)), ("accelerator_id", none)]
          = generate_dataset_uuid id "higgs"
            [("campaign_id", (some 7 : Option Int)), ("accelerator_id", none)]
        ∧ generate_dataset_uuid id "higgs"
            [("accelerator_id", (none : Option Int)), ("campaign_id", some 7)]
          = generate_dataset_uuid id "higgs"
            [("campaign_id", (some 7 : Option Int)), ("accelerator_id", none)]) :=
  ⟨⟨by decide, by decide⟩,
    C1_uuid_canonical_sorted_deterministic id "higgs"
      [("campaign_id", some 7), ("accelerator_id", none)]
      [("accelerator_id", none), ("campaign_id", some 7)]
      (by decide) (by decide)⟩

/-! ## Metadata model (`data_import.py`, merge policy)

Metadata payloads are open-ended JSON objects; we embed the values that the
merge and filter logic inspects (strings, integers, booleans, null, lists)
and the dictionaries as association lists with distinct keys. -/

/-- JSON-like metadata values stored in the metadata blob. -/
inductive MVal where
  | str : String → MVal
  | int : Int → MVal
  | bool : Bool → MVal
  | null : MVal
  | arr : List MVal → MVal

/-- Python truthiness of a metadata value, as used by
`if not is_locked` in `_merge_metadata_respecting_locks`. -/
def MVal.truthy : MVal → Bool
  | .str s => !(s == "")
  | .int n => !(n == 0)
  | .bool b => b
  | .null => false
  | .arr xs => !xs.isEmpty

/-- Emptiness test of `_filter_empty_metadata_values`: the value equals the
empty string, is Python `None`, or equals the empty list. -/
def MVal.isEmptyVal : MVal → Bool
  | .str s => s == ""
  | .null => true
  | .arr xs => xs.isEmpty
  | _ => false

/-- Metadata dictionaries: association lists with string keys. -/
abbrev Metadata : Type := List (String × MVal)

/-- Python dict assignment `d[k] = v`: replace the first binding of `k` in
place, or append a new binding at the end. -/
def metaSet : Metadata → String → MVal → Metadata
  | [], k, v => [(k, v)]
  | (k0, v0) :: rest, k, v =>
    if k0 = k then (k0, v) :: rest else (k0, v0) :: metaSet rest k v

/-- Python `d.get(k, default)`. -/
def metaGetD (m : Metadata) (k : String) (d : MVal) : MVal := (m.lookup k).getD d

/-- Lock-control key test of the merge:
`key.startswith("__") and key.endswith("__lock__")`. -/
def isLockKey (key : String) : Bool :=
  "__".data.isPrefixOf key.data && "__lock__".data.isSuffixOf key.data

/-- Lock-control key guarding a field: `f"__{key}__lock__"` (the braces in
the Python f-string surround `key`). -/
def lockKeyOf (key : String) : String := "__" ++ key ++ "__lock__"

/-- Loop body of `_merge_metadata_respecting_locks` for one entry of the
new metadata: lock-control keys always pass through; any other key is
applied only when its lock is not truthy in the existing metadata. -/
def mergeStep (existing_metadata : Metadata) (merged : Metadata)
    (kv : String × MVal) : Metadata :=
  if isLockKey kv.1 then metaSet merged kv.1 kv.2
  else if !(metaGetD existing_metadata (lockKeyOf kv.1) (MVal.bool false)).truthy
    then metaSet merged kv.1 kv.2
    else merged

/-- Embedding of `_merge_metadata_respecting_locks`: start from a copy of
the existing metadata and fold the loop body over the new entries. -/
def _merge_metadata_respecting_locks
    (existing_metadata new_metadata : Metadata) : Metadata :=
  new_metadata.foldl (mergeStep existing_metadata) existing_metadata

/-- Embedding of `_filter_empty_metadata_values`. -/
def _filter_empty_metadata_values (metadata : Metadata) : Metadata :=
  metadata.filter (fun kv => !kv.2.isEmptyVal)

/-- Pure metadata computation of `_merge_metadata_with_locked_fields`:
`existing` is the stored metadata when the entity already has a row and
`none` when there is no pre-existing record. -/
def mergeMetadataPipeline (existing : Option Metadata) (new_metadata : Metadata) : Metadata :=
  match existing with
  | some existing_metadata =>
      _filter_empty_metadata_values
        (_merge_metadata_respecting_locks existing_metadata new_metadata)
  | none => _filter_empty_metadata_values new_metadata

/-- Value that claim C2 predicts for key `k` after the merge step (before
the empty-value filter). -/
def specMergedValue (existing new_metadata : Metadata) (k : String) : Option MVal :=
  match new_metadata.lookup k with
  | some v =>
      if isLockKey k then some v
      else if (metaGetD existing (lockKeyOf k) (MVal.bool false)).truthy
        then existing.lookup k
        else some v
  | none => existing.lookup k

/-! ### Association-list lemmas for the metadata dictionaries -/

theorem lookup_metaSet (k : String) (v : MVal) :
    ∀ (m : Metadata) (k2 : String),
      (metaSet m k v).lookup k2 = if k2 = k then some v else m.lookup k2 := by
  intro m
  induction m with
  | nil =>
    intro k2
    by_cases h : k2 = k
    · subst h; simp [metaSet, List.lookup]
    · simp [metaSet, List.lookup, h, beq_eq_false_iff_ne.mpr h]
  | cons hd tl ih =>
    intro k2
    obtain ⟨k0, v0⟩ := hd
    by_cases h0 : k0 = k
    · subst h0
      by_cases h2 : k2 = k0
      · subst h2; simp [metaSet, List.lookup]
      · simp [metaSet, List.lookup, h2, beq_eq_false_iff_ne.mpr h2]
    · by_cases h2 : k2 = k0
      · subst h2
        have hne : ¬ k2 = k := fun h => h0 h
        simp [metaSet, List.lookup, h0, hne]
      · simp [metaSet, List.lookup, h0, beq_eq_false_iff_ne.mpr h2, ih k2]

theorem mem_keys_metaSet (k : String) (v : MVal) :
    ∀ (m : Metadata) (x : String),
      x ∈ (metaSet m k v).map Prod.fst ↔ x ∈ m.map Prod.fst ∨ x = k := by
  intro m
  induction m with
  | nil => intro x; simp [metaSet]
  | cons hd tl ih =>
    intro x
    obtain ⟨k0, v0⟩ := hd
    by_cases h0 : k0 = k
    · subst h0
      simp [metaSet]
      tauto
    · simp [metaSet, h0, ih x]
      tauto

theorem nodup_keys_metaSet (k : String) (v : MVal) :
    ∀ m : Metadata, (m.map Prod.fst).Nodup → ((metaSet m k v).map Prod.fst).Nodup := by
  intro m
  induction m with
  | nil => intro _; simp [metaSet]
  | cons hd tl ih =>
    obtain ⟨k0, v0⟩ := hd
    intro hnd
    simp only [List.map_cons, List.nodup_cons] at hnd
    by_cases h0 : k0 = k
    · subst h0
      simpa [metaSet, List.nodup_cons] using hnd
    · simp only [metaSet, h0, if_false, List.map_cons, List.nodup_cons]
      refine ⟨?_, ih hnd.2⟩
      intro hmem
      rcases (mem_keys_metaSet k v tl k0).mp hmem with h | h
      · exact hnd.1 h
      · exact h0 h

theorem lookup_none_of_not_mem_keys :
    ∀ (m : Metadata) (k : String), k ∉ m.map Prod.fst → m.lookup k = none := by
  intro m
  induction m with
  | nil => intro k _; rfl
  | cons hd tl ih =>
    intro k hk
    obtain ⟨k0, v0⟩ := hd
    simp only [List.map_cons, List.mem_cons, not_or] at hk
    simp only [List.lookup, beq_eq_false_iff_ne.mpr hk.1]
    exact ih k hk.2

/-- Characterization of the merge fold at one key, for an arbitrary
accumulator (the accumulator is the existing metadata at the top level). -/
theorem lookup_mergeFold (existing : Metadata) :
    ∀ (new_metadata acc : Metadata) (k : String), (new_metadata.map Prod.fst).Nodup →
      (new_metadata.foldl (mergeStep existing) acc).lookup k =
        match new_metadata.lookup k with
        | some v =>
            if isLockKey k then some v
            else if (metaGetD existing (lockKeyOf k) (MVal.bool false)).truthy
              then acc.lookup k
              else some v
        | none => acc.lookup k := by
  intro new_metadata
  induction new_metadata with
  | nil => intro acc k _; rfl
  | cons hd tl ih =>
    intro acc k hnd
    obtain ⟨k0, v0⟩ := hd
    simp only [List.map_cons, List.nodup_cons] at hnd
    simp only [List.foldl_cons]
    rw [ih (mergeStep existing acc (k0, v0)) k hnd.2]
    by_cases hk : k = k0
    · subst hk
      have htl : tl.lookup k = none := lookup_none_of_not_mem_keys tl k hnd.1
      rw [htl]
      have hhd : ((k, v0) :: tl).lookup k = some v0 := by simp [List.lookup]
      rw [hhd]
      unfold mergeStep
      by_cases hl : isLockKey k
      · simp [hl, lookup_metaSet]
      · by_cases ht : (metaGetD existing (lockKeyOf k) (MVal.bool false)).truthy
        · simp [hl, ht]
        · simp [hl, ht, lookup_metaSet]
    · have hhd : ((k0, v0) :: tl).lookup k = tl.lookup k := by
        simp [List.lookup, beq_eq_false_iff_ne.mpr hk]
      rw [hhd]
      have hacc : (mergeStep existing acc (k0, v0)).lookup k = acc.lookup k := by
        unfold mergeStep
        by_cases hl : isLockKey k0
        · simp [hl, lookup_metaSet, hk]
        · by_cases ht : (metaGetD existing (lockKeyOf k0) (MVal.bool false)).truthy
          · simp [hl, ht]
          · simp [hl, ht, lookup_metaSet, hk]
      cases htl : tl.lookup k with
      | none => simp [hacc]
      | some v => simp [hacc]

/-- The merge fold keeps the metadata keys distinct. -/
theorem nodup_keys_mergeFold (existing : Metadata) :
    ∀ (new_metadata acc : Metadata), (acc.map Prod.fst).Nodup →
      (((new_metadata.foldl (mergeStep existing) acc).map Prod.fst)).Nodup := by
  intro new_metadata
  induction new_metadata with
  | nil => intro acc h; exact h
  | cons hd tl ih =>
    intro acc h
    simp only [List.foldl_cons]
    apply ih
    unfold mergeStep
    split_ifs with h1 h2
    · exact nodup_keys_metaSet hd.1 hd.2 acc h
    · exact nodup_keys_metaSet hd.1 hd.2 acc h
    · exact h

/-- Looking up a key after the empty-value filter gives the unfiltered
value, filtered. -/
theorem lookup_filter_empty :
    ∀ (m : Metadata) (k : String), (m.map Prod.fst).Nodup →
      (_filter_empty_metadata_values m).lookup k
        = (m.lookup k).filter (fun v => !v.isEmptyVal) := by
  intro m
  induction m with
  | nil => intro k _; rfl
  | cons hd tl ih =>
    intro k hnd
    obtain ⟨k0, v0⟩ := hd
    simp only [List.map_cons, List.nodup_cons] at hnd
    by_cases he : v0.isEmptyVal = true
    · have hf : _filter_empty_metadata_values ((k0, v0) :: tl)
          = _filter_empty_metadata_values tl := by
        simp [_filter_empty_metadata_values, he]
      rw [hf]
      by_cases hk : k = k0
      · subst hk
        have h1 : (_filter_empty_metadata_values tl).lookup k = none := by
          apply lookup_none_of_not_mem_keys
          intro hmem
          exact hnd.1 (((List.filter_sublist tl).map Prod.fst).subset hmem)
        have h2 : ((k, v0) :: tl).lookup k = some v0 := by simp [List.lookup]
        rw [h1, h2]
        simp [Option.filter, he]
      · have h2 : ((k0, v0) :: tl).lookup k = tl.lookup k := by
          simp [List.lookup, beq_eq_false_iff_ne.mpr hk]
        rw [h2]
        exact ih k hnd.2
    · have hf : _filter_empty_metadata_values ((k0, v0) :: tl)
          = (k0, v0) :: _filter_empty_metadata_values tl := by
        simp [_filter_empty_metadata_values, he]
      rw [hf]
      by_cases hk : k = k0
      · subst hk
        have h2 : ((k, v0) :: tl).lookup k = some v0 := by simp [List.lookup]
        have h3 : ((k, v0) :: _filter_empty_metadata_values tl).lookup k = some v0 := by
          simp [List.lookup]
        rw [h2, h3]
        simp [Option.filter, he]
      · have h2 : ((k0, v0) :: tl).lookup k = tl.lookup k := by
          simp [List.lookup, beq_eq_false_iff_ne.mpr hk]
        have h3 : ((k0, v0) :: _filter_empty_metadata_values tl).lookup k
            = (_filter_empty_metadata_values tl).lookup k := by
          simp [List.lookup, beq_eq_false_iff_ne.mpr hk]
        rw [h2, h3]
        exact ih k hnd.2

/-- C2: with an existing record, the merge applies a new key exactly when it
is a lock-control key or its lock is not truthy in the existing metadata
(otherwise the existing binding is kept), then the empty-value filter drops
keys bound to the empty string, null, or the empty list; with no
pre-existing record only the filter is applied to the new metadata. -/
theorem C2_merge_locks_and_empty_filter (existing new_metadata : Metadata)
    (k : String) (hnde : (existing.map Prod.fst).Nodup)
    (hndn : (new_metadata.map Prod.fst).Nodup) :
    (mergeMetadataPipeline (some existing) new_metadata).lookup k
        = (specMergedValue existing new_metadata k).filter (fun v => !v.isEmptyVal)
      ∧ (mergeMetadataPipeline none new_metadata).lookup k
        = (new_metadata.lookup k).filter (fun v => !v.isEmptyVal) := by
  constructor
  · show (_filter_empty_metadata_values
        (_merge_metadata_respecting_locks existing new_metadata)).lookup k = _
    unfold _merge_metadata_respecting_locks
    rw [lookup_filter_empty _ k
      (nodup_keys_mergeFold existing new_metadata existing hnde)]
    rw [lookup_mergeFold existing new_metadata existing k hndn]
    rfl
  · show (_filter_empty_metadata_values new_metadata).lookup k = _
    exact lookup_filter_empty new_metadata k hndn

/-- Witness for C2 at the spec example: merging metadata with an empty
string, an empty list, a null, and a kept integer into an existing record
that locks the status field. -/
theorem C2_merge_locks_and_empty_filter_witness :
    (([("status", MVal.str "A"), ("__status__lock__", MVal.bool true)].map Prod.fst).Nodup
      ∧ ([("comment", MVal.str ""), ("tags", MVal.arr []), ("note", MVal.null),
          ("size", MVal.int 10), ("status", MVal.str "B")].map Prod.fst).Nodup)
      ∧ ((mergeMetadataPipeline
            (some [("status", MVal.str "A"), ("__status__lock__", MVal.bool true)])
            [("comment", MVal.str ""), ("tags", MVal.arr []), ("note", MVal.null),
              ("size", MVal.int 10), ("status", MVal.str "B")]).lookup "status"
          = (specMergedValue
              [("status", MVal.str "A"), ("__status__lock__", MVal.bool true)]
              [("comment", MVal.str ""), ("tags", MVal.arr []), ("note", MVal.null),
                ("size", MVal.int 10), ("status", MVal.str "B")] "status").filter
              (fun v => !v.isEmptyVal)
        ∧ (mergeMetadataPipeline none
            [("comment", MVal.str ""), ("tags", MVal.arr []), ("note", MVal.null),
              ("size", MVal.int 10), ("status", MVal.str "B")]).lookup "status"
          = (List.lookup "status"
              [("comment", MVal.str ""), ("tags", MVal.arr []), ("note", MVal.null),
                ("size", MVal.int 10), ("status", MVal.str "B")]).filter
              (fun v => !v.isEmptyVal)) :=
  ⟨⟨by decide, by decide⟩,
    C2_merge_locks_and_empty_filter
      [("status", MVal.str "A"), ("__status__lock__", MVal.bool true)]
      [("comment", MVal.str ""), ("tags", MVal.arr []), ("note", MVal.null),
        ("size", MVal.int 10), ("status", MVal.str "B")]
      "status" (by decide) (by decide)⟩

/-! ## Lock monotonicity across successive imports (claim C3) -/

/-- Embedding of `_process_batch_all_or_nothing`: one transaction for the
chunk; if every record succeeds it reports `(len, 0)`, and any exception
rolls the transaction back and reports `(0, len)`. -/
def _process_batch_all_or_nothing {α : Type} (ok : α → Bool) (batch : List α) :
    Nat × Nat :=
  if batch.all ok then (batch.length, 0) else (0, batch.length)

/-- Embedding of `_process_batch_individually`: each record in its own
session and transaction; a failure is counted and the loop continues. -/
def _process_batch_individually {α : Type} (ok : α → Bool) (batch : List α) :
    Nat × Nat :=
  batch.foldl
    (fun counts d =>
      if ok d then (counts.1 + 1, counts.2) else (counts.1, counts.2 + 1))
    (0, 0)

/-- Chunk-level control flow of `_process_entity_collection_with_recovery`:
try the batch, and fall back to individual processing exactly when
`batch_failed > 0 and batch_processed == 0`. -/
def processChunkWithRecovery {α : Type} (ok : α → Bool) (batch : List α) :
    Nat × Nat :=
  if (_process_batch_all_or_nothing ok batch).2 > 0
      ∧ (_process_batch_all_or_nothing ok batch).1 = 0
    then _process_batch_individually ok batch
    else _process_batch_all_or_nothing ok batch

/-- Structural chunking of the dataset list into consecutive slices of
`batch_size` records (`range(0, len(datasets), batch_size)`); the fuel
argument starts at the list length, which bounds the number of slices. -/
def chunkGo {α : Type} (batch_size : Nat) : Nat → List α → List (List α)
  | _, [] => []
  | 0, l => [l]
  | fuel + 1, x :: xs =>
    (x :: xs.take (batch_size - 1)) :: chunkGo batch_size fuel (xs.drop (batch_size - 1))

/-- Chunks of the dataset list, as sliced by the orchestrator loop. -/
def chunkList {α : Type} (batch_size : Nat) (datasets : List α) : List (List α) :=
  chunkGo batch_size datasets.length datasets

/-- Embedding of `_process_entity_collection_with_recovery`: process each
chunk with batch-then-fallback recovery and accumulate the totals. -/
def _process_entity_collection_with_recovery {α : Type} (ok : α → Bool)
    (datasets : List α) (batch_size : Nat) : Nat × Nat :=
  (chunkList batch_size datasets).foldl
    (fun totals batch =>
      (totals.1 + (processChunkWithRecovery ok batch).1,
       totals.2 + (processChunkWithRecovery ok batch).2))
    (0, 0)

/-- Embedding of `_validate_import_success`: Python evaluates
`failed_count > total_datasets / 2` with true division, embedded over the
rationals; `true` means the RuntimeError is raised. -/
def _validate_import_success (processed_count failed_count : Nat) : Bool :=
  decide (0 < processed_count + failed_count)
    && decide ((failed_count : ℚ) > ((processed_count + failed_count : Nat) : ℚ) / 2)

/-- Counting and threshold part of `import_data` after parsing: all chunks
are processed first, and only then is the threshold failure decided from
the final totals (so a raise never undoes committed work). -/
def runImportCounts {α : Type} (ok : α → Bool) (datasets : List α)
    (batch_size : Nat) : Nat × Nat × Bool :=
  ((_process_entity_collection_with_recovery ok datasets batch_size).1,
   (_process_entity_collection_with_recovery ok datasets batch_size).2,
   _validate_import_success
     (_process_entity_collection_with_recovery ok datasets batch_size).1
     (_process_entity_collection_with_recovery ok datasets batch_size).2)

/-- Chunks flatten back to the original dataset list. -/
theorem chunkGo_flatten {α : Type} (bs : Nat) :
    ∀ (fuel : Nat) (l : List α), l.length ≤ fuel → (chunkGo bs fuel l).flatten = l := by
  intro fuel
  induction fuel with
  | zero =>
    intro l h
    cases l with
    | nil => rfl
    | cons x xs => simp at h
  | succ n ih =>
    intro l h
    cases l with
    | nil => rfl
    | cons x xs =>
      simp only [chunkGo, List.flatten_cons]
      rw [ih (xs.drop (bs - 1))]
      · simp [List.take_append_drop]
      · have hd := List.length_drop (bs - 1) xs
        simp only [List.length_cons] at h
        omega

theorem chunkList_flatten {α : Type} (bs : Nat) (l : List α) :
    (chunkList bs l).flatten = l :=
  chunkGo_flatten bs l.length l (le_refl _)

/-- The individual fallback counts exactly the per-record successes and
failures. -/
theorem process_batch_individually_counts {α : Type} (ok : α → Bool) :
    ∀ (batch : List α) (acc : Nat × Nat),
      batch.foldl
        (fun counts d =>
          if ok d then (counts.1 + 1, counts.2) else (counts.1, counts.2 + 1)) acc
        = (acc.1 + batch.countP ok, acc.2 + batch.countP (fun d => !ok d)) := by
  intro batch
  induction batch with
  | nil => intro acc; simp
  | cons x xs ih =>
    intro acc
    simp only [List.foldl_cons]
    rw [ih]
    by_cases h : ok x
    · simp [List.countP_cons, h, Prod.ext_iff]
      omega
    · simp only [Bool.not_eq_true] at h
      simp [List.countP_cons, h, Prod.ext_iff]
      omega

/-- Successes and failures partition the chunk. -/
theorem countP_ok_add_countP_not {α : Type} (ok : α → Bool) :
    ∀ batch : List α, batch.countP ok + batch.countP (fun d => !ok d) = batch.length := by
  intro batch
  induction batch with
  | nil => rfl
  | cons x xs ih =>
    by_cases h : ok x
    · simp [List.countP_cons, h]
      omega
    · simp only [Bool.not_eq_true] at h
      simp [List.countP_cons, h]
      omega

/-- The individual fallback reports exactly the per-record counts. -/
theorem process_batch_individually_eq {α : Type} (ok : α → Bool) (batch : List α) :
    _process_batch_individually ok batch
      = (batch.countP ok, batch.countP (fun d => !ok d)) := by
  unfold _process_batch_individually
  rw [process_batch_individually_counts]
  simp

/-- A chunk always contributes exactly its per-record counts, whether the
batch attempt succeeded or the fallback ran. -/
theorem processChunk_counts {α : Type} (ok : α → Bool) (batch : List α) :
    processChunkWithRecovery ok batch
      = (batch.countP ok, batch.countP (fun d => !ok d)) := by
  by_cases h : batch.all ok
  · have hb : _process_batch_all_or_nothing ok batch = (batch.length, 0) := by
      unfold _process_batch_all_or_nothing
      simp [h]
    have hall : ∀ a ∈ batch, ok a = true := List.all_eq_true.mp h
    have hc1 : batch.countP ok = batch.length := List.countP_eq_length.mpr hall
    have hc2 : batch.countP (fun d => !ok d) = 0 := by
      apply List.countP_eq_zero.mpr
      intro a ha
      simp [hall a ha]
    unfold processChunkWithRecovery
    rw [hb]
    simp [hc1, hc2]
  · have hb : _process_batch_all_or_nothing ok batch = (0, batch.length) := by
      unfold _process_batch_all_or_nothing
      simp [h]
    have hne : 0 < batch.length := by
      cases batch with
      | nil => simp at h
      | cons x xs => simp
    unfold processChunkWithRecovery
    rw [hb]
    rw [if_pos ⟨hne, rfl⟩]
    exact process_batch_individually_eq ok batch

/-- The whole collection contributes exactly its per-record counts,
independent of the chunking. -/
theorem collection_recovery_counts {α : Type} (ok : α → Bool)
    (datasets : List α) (bs : Nat) :
    _process_entity_collection_with_recovery ok datasets bs
      = (datasets.countP ok, datasets.countP (fun d => !ok d)) := by
  unfold _process_entity_collection_with_recovery
  have hgen : ∀ (chunks : List (List α)) (acc : Nat × Nat),
      chunks.foldl
        (fun totals batch =>
          (totals.1 + (processChunkWithRecovery ok batch).1,
           totals.2 + (processChunkWithRecovery ok batch).2)) acc
        = (acc.1 + chunks.flatten.countP ok,
           acc.2 + chunks.flatten.countP (fun d => !ok d)) := by
    intro chunks
    induction chunks with
    | nil => intro acc; simp
    | cons c cs ih =>
      intro acc
      simp only [List.foldl_cons]
      rw [ih, processChunk_counts]
      simp [List.flatten_cons, List.countP_append, Prod.ext_iff]
      omega
  rw [hgen, chunkList_flatten]
  simp

/-- The raise condition of `_validate_import_success` is exactly a strict
majority of failures among the attempted records. -/
theorem validate_import_success_iff (p f : Nat) :
    _validate_import_success p f = true ↔ (0 < p + f ∧ p + f < 2 * f) := by
  unfold _validate_import_success
  rw [Bool.and_eq_true, decide_eq_true_eq, decide_eq_true_eq]
  constructor
  · rintro ⟨h1, h2⟩
    refine ⟨h1, ?_⟩
    rw [gt_iff_lt, div_lt_iff₀ (by norm_num : (0:ℚ) < 2)] at h2
    have hc : ((f : ℚ) * 2) = ((2 * f : Nat) : ℚ) := by push_cast; ring
    rw [hc, Nat.cast_lt] at h2
    exact h2
  · rintro ⟨h1, h2⟩
    refine ⟨h1, ?_⟩
    rw [gt_iff_lt, div_lt_iff₀ (by norm_num : (0:ℚ) < 2)]
    have hc : ((f : ℚ) * 2) = ((2 * f : Nat) : ℚ) := by push_cast; ring
    rw [hc, Nat.cast_lt]
    exact h2

/-- C4: the all-or-nothing attempt reports `(len, 0)` or `(0, len)`; the
per-record fallback runs exactly when the batch attempt reports at least
one failure and zero successes (equivalently, some record of the chunk
fails); the fallback counts per-record successes and failures without
aborting the rest; and a chunk with exactly one failing record first
reports `(0, len)` and then contributes `(len - 1, 1)`. -/
theorem C4_batch_then_fallback {α : Type} (ok : α → Bool) (batch : List α) :
    (_process_batch_all_or_nothing ok batch = (batch.length, 0)
        ∨ _process_batch_all_or_nothing ok batch = (0, batch.length))
      ∧ (((_process_batch_all_or_nothing ok batch).2 > 0
            ∧ (_process_batch_all_or_nothing ok batch).1 = 0)
          ↔ ∃ d ∈ batch, ok d = false)
      ∧ processChunkWithRecovery ok batch
          = (if (_process_batch_all_or_nothing ok batch).2 > 0
                ∧ (_process_batch_all_or_nothing ok batch).1 = 0
              then _process_batch_individually ok batch
              else _process_batch_all_or_nothing ok batch)
      ∧ _process_batch_individually ok batch
          = (batch.countP ok, batch.countP (fun d => !ok d))
      ∧ (batch.countP (fun d => !ok d) = 1 →
          _process_batch_all_or_nothing ok batch = (0, batch.length)
            ∧ processChunkWithRecovery ok batch = (batch.length - 1, 1)) := by
  refine ⟨?_, ?_, rfl, process_batch_individually_eq ok batch, ?_⟩
  · unfold _process_batch_all_or_nothing
    by_cases h : batch.all ok
    · left; simp [h]
    · right; simp [h]
  · by_cases h : batch.all ok
    · have hb : _process_batch_all_or_nothing ok batch = (batch.length, 0) := by
        unfold _process_batch_all_or_nothing
        simp [h]
      rw [hb]
      constructor
      · rintro ⟨h1, _⟩
        exact absurd h1 (lt_irrefl 0)
      · rintro ⟨d, hd, hfalse⟩
        have htrue := List.all_eq_true.mp h d hd
        rw [htrue] at hfalse
        cases hfalse
    · have hb : _process_batch_all_or_nothing ok batch = (0, batch.length) := by
        unfold _process_batch_all_or_nothing
        simp [h]
      rw [hb]
      have hne : 0 < batch.length := by
        cases batch with
        | nil => simp at h
        | cons x xs => simp
      constructor
      · intro _
        rw [List.all_eq_true] at h
        push_neg at h
        obtain ⟨d, hd, hne2⟩ := h
        exact ⟨d, hd, by simpa using hne2⟩
      · intro _
        exact ⟨hne, rfl⟩
  · intro hcount
    have hex : ∃ d ∈ batch, (!ok d) = true := by
      by_contra hno
      push_neg at hno
      have hzero : batch.countP (fun d => !ok d) = 0 :=
        List.countP_eq_zero.mpr (fun a ha => by simp [hno a ha])
      omega
    have hnall : ¬ batch.all ok = true := by
      rw [List.all_eq_true]
      intro hall
      obtain ⟨d, hd, hfd⟩ := hex
      rw [hall d hd] at hfd
      simp at hfd
    have hb : _process_batch_all_or_nothing ok batch = (0, batch.length) := by
      unfold _process_batch_all_or_nothing
      simp [hnall]
    refine ⟨hb, ?_⟩
    rw [processChunk_counts]
    have hpart := countP_ok_add_countP_not ok batch
    have hok : batch.countP ok = batch.length - 1 := by omega
    rw [hok, hcount]

/-- Witness for C4 at the spec example: a 5-record batch whose third record
violates a constraint first reports (0, 5), then contributes (4, 1). -/
theorem C4_batch_then_fallback_witness :
    _process_batch_all_or_nothing (fun d : Nat => !(d == 3)) [1, 2, 3, 4, 5] = (0, 5)
      ∧ processChunkWithRecovery (fun d : Nat => !(d == 3)) [1, 2, 3, 4, 5] = (4, 1) :=
  (C4_batch_then_fallback (fun d : Nat => !(d == 3)) [1, 2, 3, 4, 5]).2.2.2.2 (by decide)

/-- C5: the import raises exactly when more than half of all attempted
records failed (total > 0 and failed > total / 2 with true division); the
totals reported are those of all chunks, computed before the raise is
decided; 6 failures out of 10 attempted raise, 5 of 10 do not. -/
theorem C5_majority_failure_threshold {α : Type} (ok : α → Bool)
    (datasets : List α) (batch_size : Nat) :
    (∀ p f : Nat, _validate_import_success p f = true ↔ (0 < p + f ∧ p + f < 2 * f))
      ∧ runImportCounts ok datasets batch_size
          = (datasets.countP ok, datasets.countP (fun d => !ok d),
             _validate_import_success (datasets.countP ok)
               (datasets.countP (fun d => !ok d)))
      ∧ _validate_import_success 4 6 = true
      ∧ _validate_import_success 5 5 = false := by
  refine ⟨validate_import_success_iff, ?_, ?_, ?_⟩
  · unfold runImportCounts
    rw [collection_recovery_counts]
  · rw [validate_import_success_iff]
    norm_num
  · cases hb : _validate_import_success 5 5 with
    | false => rfl
    | true =>
      exfalso
      obtain ⟨_, habs⟩ := (validate_import_success_iff 5 5).mp hb
      omega

/-! ## Input parsing and the import entry point (claim C8)

`_parse_json_content` distinguishes a hard format rejection (re-raised by
`import_data`) from a recognized-incompatible shape (skipped silently,
detected via the "skipping incompatible format" substring of the
ValueError message).  `json.loads` is embedded as an already-parsed
optional JSON value (`none` for undecodable bytes), and
`DatasetCollection.model_validate` as a parameter returning either the
dataset list or a validation error message. -/

/-- Raw JSON values as produced by `json.loads`. -/
inductive PyJson where
  | jnull : PyJson
  | jbool : Bool → PyJson
  | jint : Int → PyJson
  | jstr : String → PyJson
  | jarr : List PyJson → PyJson
  | jobj : List (String × PyJson) → PyJson

/-- Result of `_parse_json_content`: the validated collection, or the
ValueError message it raises. -/
inductive ParseResult (γ : Type) where
  | ok : γ → ParseResult γ
  | valueError : String → ParseResult γ

/-- Substring search (`needle in haystack` on Python strings). -/
def isInfixOfChars (needle : List Char) : List Char → Bool
  | [] => needle.isEmpty
  | x :: xs => needle.isPrefixOf (x :: xs) || isInfixOfChars needle xs

/-- Embedding of `_parse_json_content`: undecodable bytes raise
"Invalid JSON format"; a non-object root and validation errors raise
"Invalid data format: ..."; a missing "processes" key or a non-list
"processes" value raises a message carrying the skip marker. -/
def _parse_json_content {δ : Type}
    (model_validate : List (String × PyJson) → Except String (List δ)) :
    Option PyJson → ParseResult (List δ)
  | none => ParseResult.valueError "Invalid JSON format"
  | some (PyJson.jobj fields) =>
    match fields.lookup "processes" with
    | none =>
        ParseResult.valueError
          "Invalid data format: JSON does not contain processes key - skipping incompatible format"
    | some (PyJson.jarr _) =>
        match model_validate fields with
        | Except.ok c => ParseResult.ok c
        | Except.error e => ParseResult.valueError ("Invalid data format: " ++ e)
    | some _ =>
        ParseResult.valueError
          "Invalid data format: processes value must be a list - skipping incompatible format"
  | some _ => ParseResult.valueError "Invalid data format: JSON root must be an object"

/-- Outcome of `import_data` as seen by the caller. -/
inductive ImportOutcome where
  | skippedIncompatible : ImportOutcome
  | raisedFormat : String → ImportOutcome
  | completed : Nat → Nat → Bool → ImportOutcome

/-- Embedding of `import_data`: parse, skip silently when the ValueError
message carries the skip marker, re-raise other ValueErrors, otherwise
process every chunk and decide the failure threshold (the Bool of
`completed`). -/
def import_data {δ : Type}
    (model_validate : List (String × PyJson) → Except String (List δ))
    (ok : δ → Bool) (batch_size : Nat) (json_content : Option PyJson) :
    ImportOutcome :=
  match _parse_json_content model_validate json_content with
  | ParseResult.valueError msg =>
      if isInfixOfChars "skipping incompatible format".data msg.data
        then ImportOutcome.skippedIncompatible
        else ImportOutcome.raisedFormat msg
  | ParseResult.ok datasets =>
      ImportOutcome.completed
        (_process_entity_collection_with_recovery ok datasets batch_size).1
        (_process_entity_collection_with_recovery ok datasets batch_size).2
        (_validate_import_success
          (_process_entity_collection_with_recovery ok datasets batch_size).1
          (_process_entity_collection_with_recovery ok datasets batch_size).2)

/-- C8: undecodable input and a non-object root are re-raised as hard
failures; a root without a "processes" key, or with a non-list "processes"
value, is skipped silently with nothing processed and nothing counted as a
record failure; a recognized collection is processed with per-record
counts. -/
theorem C8_hard_failure_vs_silent_skip {δ : Type}
    (model_validate : List (String × PyJson) → Except String (List δ))
    (ok : δ → Bool) (batch_size : Nat) :
    import_data model_validate ok batch_size none
        = ImportOutcome.raisedFormat "Invalid JSON format"
      ∧ (∀ j : PyJson, (∀ fields, j ≠ PyJson.jobj fields) →
          import_data model_validate ok batch_size (some j)
            = ImportOutcome.raisedFormat "Invalid data format: JSON root must be an object")
      ∧ (∀ fields : List (String × PyJson), fields.lookup "processes" = none →
          import_data model_validate ok batch_size (some (PyJson.jobj fields))
            = ImportOutcome.skippedIncompatible)
      ∧ (∀ (fields : List (String × PyJson)) (v : PyJson),
          fields.lookup "processes" = some v → (∀ xs, v ≠ PyJson.jarr xs) →
          import_data model_validate ok batch_size (some (PyJson.jobj fields))
            = ImportOutcome.skippedIncompatible)
      ∧ (∀ (fields : List (String × PyJson)) (procs : List PyJson)
            (datasets : List δ),
          fields.lookup "processes" = some (PyJson.jarr procs) →
          model_validate fields = Except.ok datasets →
          import_data model_validate ok batch_size (some (PyJson.jobj fields))
            = ImportOutcome.completed (datasets.countP ok)
                (datasets.countP (fun d => !ok d))
                (_validate_import_success (datasets.countP ok)
                  (datasets.countP (fun d => !ok d)))) := by
  refine ⟨rfl, ?_, ?_, ?_, ?_⟩
  · intro j hj
    cases j with
    | jnull => rfl
    | jbool b => rfl
    | jint n => rfl
    | jstr s => rfl
    | jarr xs => rfl
    | jobj fields => exact absurd rfl (hj fields)
  · intro fields h
    simp only [import_data, _parse_json_content]
    rw [h]
    rfl
  · intro fields v h hv
    simp only [import_data, _parse_json_content]
    rw [h]
    cases v with
    | jnull => rfl
    | jbool b => rfl
    | jint n => rfl
    | jstr s => rfl
    | jarr xs => exact absurd rfl (hv xs)
    | jobj o => rfl
  · intro fields procs datasets h1 h2
    simp only [import_data, _parse_json_content]
    rw [h1, h2]
    show ImportOutcome.completed
        (_process_entity_collection_with_recovery ok datasets batch_size).1
        (_process_entity_collection_with_recovery ok datasets batch_size).2
        (_validate_import_success
          (_process_entity_collection_with_recovery ok datasets batch_size).1
          (_process_entity_collection_with_recovery ok datasets batch_size).2) = _
    rw [collection_recovery_counts]

/-- Witness for C8: invalid JSON, a string root, an object without the
processes key, and an integer-valued processes key. -/
theorem C8_hard_failure_vs_silent_skip_witness :
    import_data (fun _ => Except.ok ([] : List Nat)) (fun _ => true) 2 none
        = ImportOutcome.raisedFormat "Invalid JSON format"
      ∧ import_data (fun _ => Except.ok ([] : List Nat)) (fun _ => true) 2
          (some (PyJson.jstr "x"))
        = ImportOutcome.raisedFormat "Invalid data format: JSON root must be an object"
      ∧ import_data (fun _ => Except.ok ([] : List Nat)) (fun _ => true) 2
          (some (PyJson.jobj []))
        = ImportOutcome.skippedIncompatible
      ∧ import_data (fun _ => Except.ok ([] : List Nat)) (fun _ => true) 2
          (some (PyJson.jobj [("processes", PyJson.jint 3)]))
        = ImportOutcome.skippedIncompatible :=
  ⟨(C8_hard_failure_vs_silent_skip (fun _ => Except.ok ([] : List Nat))
      (fun _ => true) 2).1,
   (C8_hard_failure_vs_silent_skip (fun _ => Except.ok ([] : List Nat))
      (fun _ => true) 2).2.1 (PyJson.jstr "x") (fun _ h => PyJson.noConfusion h),
   (C8_hard_failure_vs_silent_skip (fun _ => Except.ok ([] : List Nat))
      (fun _ => true) 2).2.2.1 [] rfl,
   (C8_hard_failure_vs_silent_skip (fun _ => Except.ok ([] : List Nat))
      (fun _ => true) 2).2.2.2.1 [("processes", PyJson.jint 3)] (PyJson.jint 3) rfl
      (fun _ h => PyJson.noConfusion h)⟩

/-! ## Reference-entity get-or-create with race tolerance (claim C7)

The reference table is a list of `(identifier, name)` rows.  The lookup of
`_get_or_create_entity` is `SELECT ... WHERE name ILIKE $1` with the
supplied name bound as the parameter: PostgreSQL ILIKE interprets it as a
case-insensitive pattern in which `%` matches any character sequence, `_`
matches exactly one character, and a backslash escapes the next character
(a pattern ending in a lone backslash raises an error).  The INSERT
outcome is an environment value: either no concurrent writer (the insert
succeeds and returns a fresh identifier) or a uniqueness violation raised
because a concurrent transaction committed a newer table state. -/

/-- Case-insensitive LIKE matching of `text` against `pattern`
(PostgreSQL ILIKE): `%` matches any sequence, `_` one character, a
backslash escapes the next pattern character.  The fuel argument is
bounded below by `pattern.length + text.length`, which every recursive
call decreases, so the zero-fuel arm is unreachable from `ilikeMatch`. -/
def likeMatchFuel : Nat → List Char → List Char → Bool
  | 0, _, _ => false
  | _ + 1, [], text => text.isEmpty
  | fuel + 1, p :: ps, text =>
    if p = '%' then
      likeMatchFuel fuel ps text
        || (match text with
            | [] => false
            | _ :: ts => likeMatchFuel fuel (p :: ps) ts)
    else if p = '_' then
      match text with
      | [] => false
      | _ :: ts => likeMatchFuel fuel ps ts
    else if p = '\\' then
      match ps with
      | [] => false
      | p2 :: ps2 =>
        match text with
        | [] => false
        | t :: ts => (p2.toLower == t.toLower) && likeMatchFuel fuel ps2 ts
    else
      match text with
      | [] => false
      | t :: ts => (p.toLower == t.toLower) && likeMatchFuel fuel ps ts

/-- ILIKE match of a stored name against the bound pattern. -/
def ilikeMatch (text pattern : String) : Bool :=
  likeMatchFuel (pattern.data.length + text.data.length + 1) pattern.data text.data

/-- Validity of a LIKE pattern: PostgreSQL rejects a pattern ending in the
escape character ("LIKE pattern must not end with escape character"). -/
def validLikePattern : List Char → Bool
  | [] => true
  | [p] => if p = '\\' then false else true
  | p :: p2 :: ps =>
    if p = '\\' then validLikePattern ps else validLikePattern (p2 :: ps)

/-- Plain case-insensitive string equality — the reading of the lookup in
claim C7 ("case-insensitive lookup by name"), to be compared with the
ILIKE semantics of the source. -/
def ciEq (a b : String) : Bool := a.data.map Char.toLower == b.data.map Char.toLower

/-- Lookup as claim C7 words it: the row whose name equals the given name
case-insensitively. -/
def nameLookupCI (rows : List (Nat × String)) (name : String) : Option Nat :=
  (rows.find? (fun r => ciEq r.2 name)).map Prod.fst

/-- Lookup as the source performs it (`name ILIKE $1` with the supplied
name as the bound pattern): an invalid pattern makes the database raise,
otherwise the first pattern-matched row's identifier is returned. -/
def ilikeLookup (rows : List (Nat × String)) (name : String) :
    Except String (Option Nat) :=
  if validLikePattern name.data then
    Except.ok ((rows.find? (fun r => ilikeMatch r.2 name)).map Prod.fst)
  else
    Except.error "LIKE pattern must not end with escape character"

/-- Outcome of the INSERT attempt, from the environment. -/
inductive InsertEnv where
  | noRace : InsertEnv
  | uniqueViolation : List (Nat × String) → InsertEnv

/-- Embedding of `_get_or_create_entity` for one reference table: an empty
name is rejected; otherwise the ILIKE lookup returns an existing matched
identifier (a database error from an invalid pattern propagates);
otherwise the insert runs, and a uniqueness violation from a concurrent
creator triggers a re-query of the now-visible rows; an error value stands
for the raised exception. -/
def _get_or_create_entity (rows : List (Nat × String)) (next_id : Nat)
    (name : String) (env : InsertEnv) :
    Except String (Nat × List (Nat × String)) :=
  if name = "" then Except.error "A name is required to find or create an entity."
  else
    match ilikeLookup rows name with
    | Except.error e => Except.error e
    | Except.ok (some entity_id) => Except.ok (entity_id, rows)
    | Except.ok none =>
      match env with
      | InsertEnv.noRace => Except.ok (next_id, rows ++ [(next_id, name)])
      | InsertEnv.uniqueViolation rows2 =>
        match ilikeLookup rows2 name with
        | Except.error e => Except.error e
        | Except.ok (some entity_id) => Except.ok (entity_id, rows2)
        | Except.ok none => Except.error "Failed to create or find entity"

/-- List equality test on a cons pair unfolds componentwise. -/
theorem cons_beq_chars (a b : Char) (as bs : List Char) :
    ((a :: as : List Char) == (b :: bs)) = ((a == b) && (as == bs)) := rfl

/-- The character-list equality test is symmetric. -/
theorem beq_list_symm (a b : List Char) : (a == b) = (b == a) := by
  by_cases h : a = b
  · subst h
    rfl
  · rw [beq_eq_false_iff_ne.mpr h, beq_eq_false_iff_ne.mpr (Ne.symm h)]

/-- On a pattern free of wildcard and escape characters, LIKE matching is
exactly case-insensitive equality. -/
theorem likeMatchFuel_plain :
    ∀ p : List Char, (∀ c ∈ p, c ≠ '%' ∧ c ≠ '_' ∧ c ≠ '\\') →
      ∀ (t : List Char) (fuel : Nat), p.length + t.length < fuel →
        likeMatchFuel fuel p t = (p.map Char.toLower == t.map Char.toLower) := by
  intro p
  induction p with
  | nil =>
    intro _ t fuel hf
    cases fuel with
    | zero => omega
    | succ f =>
      cases t with
      | nil => rfl
      | cons x xs => rfl
  | cons c ps ih =>
    intro hspec t fuel hf
    have hc := hspec c (List.mem_cons_self c ps)
    cases fuel with
    | zero => omega
    | succ f =>
      simp only [likeMatchFuel, if_neg hc.1, if_neg hc.2.1, if_neg hc.2.2]
      cases t with
      | nil => simp
      | cons x xs =>
        have hlen : ps.length + xs.length < f := by
          simp only [List.length_cons] at hf
          omega
        show (c.toLower == x.toLower && likeMatchFuel f ps xs) = _
        rw [ih (fun c2 h2 => hspec c2 (List.mem_cons_of_mem c h2)) xs f hlen]
        simp only [List.map_cons, cons_beq_chars]

/-- A pattern without the escape character is a valid LIKE pattern. -/
theorem validLikePattern_of_no_escape :
    ∀ p : List Char, (∀ c ∈ p, c ≠ '\\') → validLikePattern p = true := by
  intro p
  induction p with
  | nil => intro _; rfl
  | cons c ps ih =>
    intro h
    have hc := h c (List.mem_cons_self c ps)
    cases ps with
    | nil => simp [validLikePattern, hc]
    | cons c2 ps2 =>
      simp only [validLikePattern, if_neg hc]
      exact ih (fun c3 h3 => h c3 (List.mem_cons_of_mem c h3))

/-- On names free of wildcard and escape characters, the ILIKE lookup of
the source is exactly the case-insensitive name lookup the claim words
describe. -/
theorem ilikeLookup_plain_names (rows : List (Nat × String)) (name : String)
    (h : ∀ c ∈ name.data, c ≠ '%' ∧ c ≠ '_' ∧ c ≠ '\\') :
    ilikeLookup rows name = Except.ok (nameLookupCI rows name) := by
  unfold ilikeLookup nameLookupCI
  have hvalid : validLikePattern name.data = true :=
    validLikePattern_of_no_escape name.data (fun c hc => (h c hc).2.2)
  rw [if_pos hvalid]
  have hfun : (fun r : Nat × String => ilikeMatch r.2 name)
      = (fun r : Nat × String => ciEq r.2 name) := by
    funext r
    unfold ilikeMatch ciEq
    rw [likeMatchFuel_plain name.data h r.2.data
      (name.data.length + r.2.data.length + 1) (Nat.lt_succ_self _)]
    exact beq_list_symm _ _
  rw [hfun]

/-- C7 is refuted for names containing ILIKE wildcards: with the table
holding only the row (1, "fcc"), the name "f_c" has no case-insensitively
equal row — by the claim, get-or-create should insert and return the fresh
identifier 2 — yet the source's `name ILIKE $1` lookup pattern-matches
"fcc" (`_` matches any single character) and returns the existing row's
identifier 1 without inserting. -/
theorem C7_counterexample_wildcard_name :
    ("f_c" ≠ "")
      ∧ nameLookupCI [(1, "fcc")] "f_c" = none
      ∧ _get_or_create_entity [(1, "fcc")] 2 "f_c" InsertEnv.noRace
          = Except.ok (1, [(1, "fcc")])
      ∧ _get_or_create_entity [(1, "fcc")] 2 "f_c" InsertEnv.noRace
          ≠ Except.ok (2, [(1, "fcc"), (2, "f_c")]) :=
  ⟨by decide, rfl, rfl, by
    intro hcontra
    have h1 : _get_or_create_entity [(1, "fcc")] 2 "f_c" InsertEnv.noRace
        = Except.ok (1, [(1, "fcc")]) := rfl
    rw [h1] at hcontra
    injection hcontra with h2
    injection h2 with h3 h4
    exact absurd h3 (by decide)⟩

/-- C7 (amended): the lookup of get-or-create is `name ILIKE $1` — ILIKE
pattern matching with the supplied name as the pattern, which on names
free of wildcard and escape characters is exactly a case-insensitive
lookup by name.  For a non-empty name: a pattern-matched row's identifier
is returned as-is; when the lookup matches nothing, the insert runs and
the generated identifier is returned; a uniqueness violation from a
concurrent creator triggers a re-query that returns the now-existing
identifier instead of propagating; and a hard failure arises only when
that final re-query also matches nothing. -/
theorem C7_get_or_create_ilike_race_tolerance (rows rows2 : List (Nat × String))
    (next_id : Nat) (name : String) (hname : name ≠ "") :
    (∀ (env : InsertEnv) (entity_id : Nat),
        ilikeLookup rows name = Except.ok (some entity_id) →
        _get_or_create_entity rows next_id name env = Except.ok (entity_id, rows))
      ∧ (ilikeLookup rows name = Except.ok none →
          _get_or_create_entity rows next_id name InsertEnv.noRace
            = Except.ok (next_id, rows ++ [(next_id, name)]))
      ∧ (∀ entity_id : Nat, ilikeLookup rows name = Except.ok none →
          ilikeLookup rows2 name = Except.ok (some entity_id) →
          _get_or_create_entity rows next_id name (InsertEnv.uniqueViolation rows2)
            = Except.ok (entity_id, rows2))
      ∧ (ilikeLookup rows name = Except.ok none →
          ilikeLookup rows2 name = Except.ok none →
          _get_or_create_entity rows next_id name (InsertEnv.uniqueViolation rows2)
            = Except.error "Failed to create or find entity")
      ∧ ((∀ c ∈ name.data, c ≠ '%' ∧ c ≠ '_' ∧ c ≠ '\\') →
          ilikeLookup rows name = Except.ok (nameLookupCI rows name)) := by
  refine ⟨?_, ?_, ?_, ?_, ilikeLookup_plain_names rows name⟩
  · intro env entity_id h
    unfold _get_or_create_entity
    rw [if_neg hname]
    simp only [h]
  · intro h
    unfold _get_or_create_entity
    rw [if_neg hname]
    simp only [h]
  · intro entity_id h h2
    unfold _get_or_create_entity
    rw [if_neg hname]
    simp only [h, h2]
  · intro h h2
    unfold _get_or_create_entity
    rw [if_neg hname]
    simp only [h, h2]

/-- Witness for the amended C7: a case-insensitive hit, a fresh insert, a
recovered race, the data-corruption failure, and the plain-name agreement
of the ILIKE lookup, on concrete tables. -/
theorem C7_get_or_create_ilike_race_tolerance_witness :
    ("lhc" ≠ "")
      ∧ (_get_or_create_entity [(1, "LHC")] 2 "lhc" InsertEnv.noRace
          = Except.ok (1, [(1, "LHC")])
        ∧ _get_or_create_entity [(1, "LHC")] 2 "fcc" InsertEnv.noRace
          = Except.ok (2, [(1, "LHC"), (2, "fcc")])
        ∧ _get_or_create_entity [(1, "LHC")] 2 "fcc"
            (InsertEnv.uniqueViolation [(1, "LHC"), (7, "FCC")])
          = Except.ok (7, [(1, "LHC"), (7, "FCC")])
        ∧ _get_or_create_entity [(1, "LHC")] 2 "fcc"
            (InsertEnv.uniqueViolation [(1, "LHC")])
          = Except.error "Failed to create or find entity"
        ∧ ilikeLookup [(1, "LHC")] "lhc" = Except.ok (nameLookupCI [(1, "LHC")] "lhc")) :=
  ⟨by decide,
    (C7_get_or_create_ilike_race_tolerance [(1, "LHC")] [] 2 "lhc" (by decide)).1
      InsertEnv.noRace 1 rfl,
    (C7_get_or_create_ilike_race_tolerance [(1, "LHC")] [] 2 "fcc" (by decide)).2.1 rfl,
    (C7_get_or_create_ilike_race_tolerance [(1, "LHC")] [(1, "LHC"), (7, "FCC")] 2
      "fcc" (by decide)).2.2.1 7 rfl rfl,
    (C7_get_or_create_ilike_race_tolerance [(1, "LHC")] [(1, "LHC")] 2 "fcc"
      (by decide)).2.2.2.1 rfl rfl,
    (C7_get_or_create_ilike_race_tolerance [(1, "LHC")] [] 2 "lhc"
      (by decide)).2.2.2.2 (by decide)⟩

/-! ## Navigation-entity structure and per-record resolution (claim C9)

A dataset record exposes its reference-category fields as an accessor
`String → Option String` (the `getattr` on direct JSON fields); the
resolver environment `resolve table name extra` gives the outcome of
`_get_or_create_entity` for that call, `extra` being the dependent
`accelerator_id` passed for detector rows. -/

/-- Per-category navigation info built by
`_get_navigation_entity_structure`. -/
structure NavEntityInfo where
  table_name : String
  field_name : String
  foreign_key_column : String
deriving DecidableEq

/-- Environment for structure discovery: configured category order plus
the table names discovered by schema introspection, or the two degraded
situations. -/
inductive NavConfigEnv where
  | full : List String → (String → Option String) → NavConfigEnv
  | introspectionFailed : List String → NavConfigEnv
  | configUnavailable : NavConfigEnv

/-- Embedding of `_get_navigation_entity_structure`: discovered table
names when introspection succeeds (falling back per category to the
conventional plural), convention-only names when introspection fails, and
an empty structure when even configuration access fails. -/
def _get_navigation_entity_structure : NavConfigEnv → List (String × NavEntityInfo)
  | NavConfigEnv.full navigation_order discovered =>
      navigation_order.map (fun entity_key =>
        (entity_key,
          { table_name := (discovered entity_key).getD (entity_key ++ "s"),
            field_name := entity_key,
            foreign_key_column := entity_key ++ "_id" }))
  | NavConfigEnv.introspectionFailed navigation_order =>
      navigation_order.map (fun entity_key =>
        (entity_key,
          { table_name := entity_key ++ "s",
            field_name := entity_key,
            foreign_key_column := entity_key ++ "_id" }))
  | NavConfigEnv.configUnavailable => []

/-- Python `str(field_value).strip()` over the character list. -/
def stripChars (s : String) : String :=
  String.mk
    (((s.data.dropWhile Char.isWhitespace).reverse.dropWhile Char.isWhitespace).reverse)

/-- Entity name taken from a direct JSON field: present and non-blank
after stripping (`if field_value and str(field_value).strip()`). -/
def extractEntityName (dataset_data : String → Option String)
    (field_name : String) : Option String :=
  match dataset_data field_name with
  | none => none
  | some s => if stripChars s = "" then none else some (stripChars s)

/-- Dict assignment on the foreign-key dictionary. -/
def setFk : List (String × Option Nat) → String → Option Nat → List (String × Option Nat)
  | [], k, v => [(k, v)]
  | (k0, v0) :: rest, k, v =>
    if k0 = k then (k0, v) :: rest else (k0, v0) :: setFk rest k v

/-- Loop of `_create_navigation_entities` over the discovered structure:
for each category with a non-blank name, call the resolver (passing the
already-resolved accelerator identifier for the detector category when it
is truthy); a resolver exception ends the loop and the partial dictionary
is returned (the surrounding `except` logs a warning instead of
re-raising). -/
def createNavLoop (resolve : String → String → Option Nat → Except Unit Nat)
    (dataset_data : String → Option String) :
    List (String × NavEntityInfo) → List (String × Option Nat) →
      List (String × Option Nat)
  | [], acc => acc
  | (entity_key, entity_info) :: rest, acc =>
    match extractEntityName dataset_data entity_info.field_name with
    | none => createNavLoop resolve dataset_data rest acc
    | some entity_name =>
      match resolve entity_info.table_name entity_name
          (if entity_key = "detector" then
            match (acc.lookup "accelerator_id").getD none with
            | some accel_id => if accel_id = 0 then none else some accel_id
            | none => none
          else none) with
      | Except.ok entity_id =>
          createNavLoop resolve dataset_data rest
            (setFk acc entity_info.foreign_key_column (some entity_id))
      | Except.error _ => acc

/-- Embedding of `_create_navigation_entities`: initialize every category
to null, then run the resolution loop. -/
def _create_navigation_entities (resolve : String → String → Option Nat → Except Unit Nat)
    (env : NavConfigEnv) (dataset_data : String → Option String) :
    List (String × Option Nat) :=
  createNavLoop resolve dataset_data (_get_navigation_entity_structure env)
    ((_get_navigation_entity_structure env).map (fun e => (e.2.foreign_key_column, none)))

/-- Row written for one record by `_process_single_dataset`: the record is
always persisted with whatever foreign keys resolution produced. -/
structure PersistedRow where
  name : String
  foreign_key_ids : List (String × Option Nat)
  metadata : Metadata

/-- Embedding of `_process_single_dataset` for one record (name generation
and the metadata merge are modelled separately): navigation entities are
created first, then the main entity is upserted with the resulting
foreign keys — a resolution failure never prevents the upsert. -/
def _process_single_dataset (resolve : String → String → Option Nat → Except Unit Nat)
    (env : NavConfigEnv) (dataset_data : String → Option String)
    (dataset_name : String) (metadata_dict : Metadata) : PersistedRow :=
  { name := dataset_name,
    foreign_key_ids := _create_navigation_entities resolve env dataset_data,
    metadata := metadata_dict }

/-- A resolver that always raises leaves the accumulator untouched. -/
theorem createNavLoop_all_fail (resolve : String → String → Option Nat → Except Unit Nat)
    (dataset_data : String → Option String)
    (hfail : ∀ t n e, resolve t n e = Except.error ()) :
    ∀ (entity_structure : List (String × NavEntityInfo))
      (acc : List (String × Option Nat)),
      createNavLoop resolve dataset_data entity_structure acc = acc := by
  intro entity_structure
  induction entity_structure with
  | nil => intro acc; rfl
  | cons hd rest ih =>
    intro acc
    obtain ⟨entity_key, entity_info⟩ := hd
    cases hx : extractEntityName dataset_data entity_info.field_name with
    | none =>
      simp only [createNavLoop, hx]
      exact ih acc
    | some entity_name =>
      simp only [createNavLoop, hx, hfail]

/-- Lookup after a dict assignment on the foreign-key dictionary. -/
theorem lookup_setFk (k : String) (v : Option Nat) :
    ∀ (m : List (String × Option Nat)) (k2 : String),
      (setFk m k v).lookup k2 = if k2 = k then some v else m.lookup k2 := by
  intro m
  induction m with
  | nil =>
    intro k2
    by_cases h : k2 = k
    · subst h; simp [setFk, List.lookup]
    · simp [setFk, List.lookup, h, beq_eq_false_iff_ne.mpr h]
  | cons hd tl ih =>
    intro k2
    obtain ⟨k0, v0⟩ := hd
    by_cases h0 : k0 = k
    · subst h0
      by_cases h2 : k2 = k0
      · subst h2; simp [setFk, List.lookup]
      · simp [setFk, List.lookup, h2, beq_eq_false_iff_ne.mpr h2]
    · by_cases h2 : k2 = k0
      · subst h2
        have hne : ¬ k2 = k := fun h => h0 h
        simp [setFk, List.lookup, h0, hne]
      · simp [setFk, List.lookup, h0, beq_eq_false_iff_ne.mpr h2, ih k2]

/-- A non-null foreign key in the loop result comes from the accumulator
or from a successful resolver call on a category of the structure. -/
theorem createNavLoop_some_of_resolved
    (resolve : String → String → Option Nat → Except Unit Nat)
    (dataset_data : String → Option String) :
    ∀ (entity_structure : List (String × NavEntityInfo))
      (acc : List (String × Option Nat)) (col : String) (entity_id : Nat),
      (createNavLoop resolve dataset_data entity_structure acc).lookup col
          = some (some entity_id) →
      acc.lookup col = some (some entity_id)
        ∨ ∃ entity_key entity_info entity_name extra,
            (entity_key, entity_info) ∈ entity_structure
              ∧ entity_info.foreign_key_column = col
              ∧ extractEntityName dataset_data entity_info.field_name = some entity_name
              ∧ resolve entity_info.table_name entity_name extra
                  = Except.ok entity_id := by
  intro entity_structure
  induction entity_structure with
  | nil =>
    intro acc col entity_id h
    left
    exact h
  | cons hd rest ih =>
    intro acc col entity_id h
    obtain ⟨entity_key, entity_info⟩ := hd
    cases hx : extractEntityName dataset_data entity_info.field_name with
    | none =>
      simp only [createNavLoop, hx] at h
      rcases ih acc col entity_id h with hl | ⟨k2, i2, n2, e2, hmem, hcol, hex, hres⟩
      · left; exact hl
      · right; exact ⟨k2, i2, n2, e2, List.mem_cons_of_mem _ hmem, hcol, hex, hres⟩
    | some entity_name =>
      simp only [createNavLoop, hx] at h
      cases hres : resolve entity_info.table_name entity_name
          (if entity_key = "detector" then
            match (acc.lookup "accelerator_id").getD none with
            | some accel_id => if accel_id = 0 then none else some accel_id
            | none => none
          else none) with
      | error u =>
        simp only [hres] at h
        left
        exact h
      | ok entity_id0 =>
        simp only [hres] at h
        rcases ih _ col entity_id h with hl | ⟨k2, i2, n2, e2, hmem, hcol, hex, hres2⟩
        · rw [lookup_setFk] at hl
          by_cases hc : col = entity_info.foreign_key_column
          · rw [if_pos hc] at hl
            injection hl with hl2
            injection hl2 with hl3
            right
            exact ⟨entity_key, entity_info, entity_name, _, List.mem_cons_self _ _,
              hc.symm, hx, hl3 ▸ hres⟩
          · rw [if_neg hc] at hl
            left
            exact hl
        · right
          exact ⟨k2, i2, n2, e2, List.mem_cons_of_mem _ hmem, hcol, hex, hres2⟩

/-- The initial foreign-key dictionary binds every category to null, never
to a resolved identifier. -/
theorem init_fk_lookup_no_id :
    ∀ (l : List (String × NavEntityInfo)) (col : String) (entity_id : Nat),
      (l.map (fun e => (e.2.foreign_key_column, (none : Option Nat)))).lookup col
        ≠ some (some entity_id) := by
  intro l
  induction l with
  | nil => intro col entity_id h; cases h
  | cons hd tl ih =>
    intro col entity_id
    simp only [List.map_cons, List.lookup]
    by_cases hc : (col == hd.2.foreign_key_column)
    · rw [hc]
      intro h
      injection h with h2
      cases h2
    · rw [Bool.not_eq_true] at hc
      rw [hc]
      exact ih col entity_id

/-- C9: the record is always persisted with whatever foreign keys
resolution produced; a resolver that always fails leaves every category
null; any non-null foreign key witnesses a successful resolver call on a
category of the structure (so unresolved categories stay null); and with
configuration unavailable the structure is empty, resolution is skipped
entirely (the resolver is never consulted), and the record keeps an empty
(all-null) foreign-key dictionary. -/
theorem C9_resolution_failure_null_fks
    (resolve : String → String → Option Nat → Except Unit Nat)
    (dataset_data : String → Option String) (dataset_name : String)
    (metadata_dict : Metadata) :
    (∀ env : NavConfigEnv,
        _process_single_dataset resolve env dataset_data dataset_name metadata_dict
          = { name := dataset_name,
              foreign_key_ids := _create_navigation_entities resolve env dataset_data,
              metadata := metadata_dict })
      ∧ ((∀ t n e, resolve t n e = Except.error ()) →
          ∀ env : NavConfigEnv,
            _create_navigation_entities resolve env dataset_data
              = (_get_navigation_entity_structure env).map
                  (fun e => (e.2.foreign_key_column, none)))
      ∧ (∀ (env : NavConfigEnv) (col : String) (entity_id : Nat),
          (_create_navigation_entities resolve env dataset_data).lookup col
              = some (some entity_id) →
          ∃ entity_key entity_info entity_name extra,
            (entity_key, entity_info) ∈ _get_navigation_entity_structure env
              ∧ entity_info.foreign_key_column = col
              ∧ extractEntityName dataset_data entity_info.field_name = some entity_name
              ∧ resolve entity_info.table_name entity_name extra = Except.ok entity_id)
      ∧ (∀ resolve2 : String → String → Option Nat → Except Unit Nat,
          _create_navigation_entities resolve NavConfigEnv.configUnavailable dataset_data
              = []
            ∧ _create_navigation_entities resolve NavConfigEnv.configUnavailable
                dataset_data
              = _create_navigation_entities resolve2 NavConfigEnv.configUnavailable
                  dataset_data) := by
  refine ⟨fun env => rfl, ?_, ?_, fun resolve2 => ⟨rfl, rfl⟩⟩
  · intro hfail env
    unfold _create_navigation_entities
    exact createNavLoop_all_fail resolve dataset_data hfail _ _
  · intro env col entity_id h
    unfold _create_navigation_entities at h
    rcases createNavLoop_some_of_resolved resolve dataset_data _ _ col entity_id h with
      hl | hr
    · exact absurd hl (init_fk_lookup_no_id _ col entity_id)
    · exact hr

/-- Witness for C9: a resolver that always raises yields the all-null
dictionary over a two-category structure, and an unavailable configuration
yields the empty dictionary. -/
theorem C9_resolution_failure_null_fks_witness :
    _create_navigation_entities (fun _ _ _ => Except.error ())
        (NavConfigEnv.introspectionFailed ["accelerator", "detector"])
        (fun _ => some "LHC")
      = (_get_navigation_entity_structure
          (NavConfigEnv.introspectionFailed ["accelerator", "detector"])).map
          (fun e => (e.2.foreign_key_column, none))
      ∧ _create_navigation_entities (fun _ _ _ => Except.error ())
          NavConfigEnv.configUnavailable (fun _ => some "LHC") = [] :=
  ⟨(C9_resolution_failure_null_fks (fun _ _ _ => Except.error ())
      (fun _ => some "LHC") "ds" []).2.1 (fun _ _ _ => rfl)
      (NavConfigEnv.introspectionFailed ["accelerator", "detector"]),
   ((C9_resolution_failure_null_fks (fun _ _ _ => Except.error ())
      (fun _ => some "LHC") "ds" []).2.2.2 (fun _ _ _ => Except.error ())).1⟩

/-! ## Batch-level reference pre-resolution (claim C10)

`_preprocess_batch_navigation_entities` collects, per category, the set of
distinct non-blank names used across the batch, then creates or fetches
each exactly once via `_get_or_create_entity(conn, GenericEntityCreate,
table_name, name=name)` — passing only the name, never an `accelerator_id`.
We record the calls it issues; the Python set/dict iteration order is
abstracted to structure order and first-appearance order, which preserves
the multiset of calls. -/

/-- One reference-entity creation call issued by the batch pre-resolution;
`extra_accelerator_id` records the dependent field passed with the call. -/
structure CreationCall where
  table_name : String
  entity_name : String
  extra_accelerator_id : Option Nat
deriving DecidableEq

/-- Distinct non-blank names of one category across the batch (the
`unique_entities` name set). -/
def batchUniqueNames (batch : List (String → Option String))
    (field_name : String) : List String :=
  (batch.filterMap (fun dataset_data => extractEntityName dataset_data field_name)).dedup

/-- Creation calls issued by `_preprocess_batch_navigation_entities`: one
per category and distinct name, with only the name supplied. -/
def _preprocess_batch_navigation_entities
    (entity_structure : List (String × NavEntityInfo))
    (batch : List (String → Option String)) : List CreationCall :=
  entity_structure.flatMap (fun e =>
    (batchUniqueNames batch e.2.field_name).map
      (fun entity_name =>
        { table_name := e.2.table_name, entity_name := entity_name,
          extra_accelerator_id := none }))

/-- Concrete batch record carrying an accelerator and a detector, used to
check the detector-scoping part of claim C10. -/
def demoBatchRecord : String → Option String := fun field_name =>
  if field_name = "accelerator" then some "LHC"
  else if field_name = "detector" then some "ATLAS"
  else none

/-- C10 is refuted on the detector-scoping part: in the batch
pre-resolution, with an accelerator present ("LHC" resolves for the batch),
the detector creation call for "ATLAS" carries no accelerator identifier
(`extra_accelerator_id = none`) — unlike the individual path of
`_create_navigation_entities`, which passes `accelerator_id` for detector
rows. -/
theorem C10_counterexample_batch_detector_unscoped :
    batchUniqueNames [demoBatchRecord] "accelerator" = ["LHC"]
      ∧ ¬ (∀ c ∈ _preprocess_batch_navigation_entities
            (_get_navigation_entity_structure
              (NavConfigEnv.introspectionFailed ["accelerator", "detector"]))
            [demoBatchRecord],
          c.table_name = "detectors" → c.extra_accelerator_id ≠ none) := by
  constructor
  · decide
  · decide

/-- Counting a creation call among the calls of one category counts its
name. -/
theorem count_call_map_names (table name2 : String) :
    ∀ names : List String,
      List.count
          ({ table_name := table, entity_name := name2,
             extra_accelerator_id := none } : CreationCall)
          (names.map (fun entity_name =>
            ({ table_name := table, entity_name := entity_name,
               extra_accelerator_id := none } : CreationCall)))
        = names.count name2 := by
  intro names
  induction names with
  | nil => rfl
  | cons n ns ih =>
    simp only [List.map_cons, List.count_cons, ih]
    by_cases h : n = name2
    · subst h
      simp
    · have h1 : ((CreationCall.mk table n none)
            == (CreationCall.mk table name2 none)) = false := by
        apply beq_eq_false_iff_ne.mpr
        intro heq
        exact h (congrArg CreationCall.entity_name heq)
      have h2 : ((n == name2) = false) := beq_eq_false_iff_ne.mpr h
      rw [h1, h2]

/-- Calls of a category with a different table name never match. -/
theorem count_call_other_table (table other name2 : String) (hne : other ≠ table)
    (names : List String) :
    List.count
        ({ table_name := table, entity_name := name2,
           extra_accelerator_id := none } : CreationCall)
        (names.map (fun entity_name =>
          ({ table_name := other, entity_name := entity_name,
             extra_accelerator_id := none } : CreationCall)))
      = 0 := by
  apply List.count_eq_zero_of_not_mem
  intro hmem
  obtain ⟨n, _, heq⟩ := List.mem_map.mp hmem
  exact hne (congrArg CreationCall.table_name heq)

/-- Exactly-once counting of the batch pre-resolution calls, per category
with pairwise distinct table names. -/
theorem count_preprocess (batch : List (String → Option String)) :
    ∀ entity_structure : List (String × NavEntityInfo),
      (entity_structure.map (fun e => e.2.table_name)).Nodup →
      ∀ entity_key entity_info, (entity_key, entity_info) ∈ entity_structure →
      ∀ name2 : String,
        List.count
            ({ table_name := entity_info.table_name, entity_name := name2,
               extra_accelerator_id := none } : CreationCall)
            (_preprocess_batch_navigation_entities entity_structure batch)
          = if name2 ∈ batch.filterMap
                (fun dataset_data =>
                  extractEntityName dataset_data entity_info.field_name)
            then 1 else 0 := by
  intro entity_structure
  induction entity_structure with
  | nil =>
    intro _ ek ei h
    cases h
  | cons hd rest ih =>
    intro hnd ek ei hmem name2
    simp only [List.map_cons, List.nodup_cons] at hnd
    have hsplit : _preprocess_batch_navigation_entities (hd :: rest) batch
        = (batchUniqueNames batch hd.2.field_name).map
            (fun entity_name =>
              ({ table_name := hd.2.table_name, entity_name := entity_name,
                 extra_accelerator_id := none } : CreationCall))
          ++ _preprocess_batch_navigation_entities rest batch := by
      simp [_preprocess_batch_navigation_entities]
    rw [hsplit, List.count_append]
    rcases List.mem_cons.mp hmem with heq | htl
    · have hei : hd.2 = ei := by rw [← heq]
      rw [hei, count_call_map_names]
      have hrest : List.count
          ({ table_name := ei.table_name, entity_name := name2,
             extra_accelerator_id := none } : CreationCall)
          (_preprocess_batch_navigation_entities rest batch) = 0 := by
        apply List.count_eq_zero_of_not_mem
        intro hmem2
        obtain ⟨e, hmem3, hc⟩ :=
          List.mem_flatMap.mp hmem2
        obtain ⟨n, _, heq2⟩ := List.mem_map.mp hc
        have htab : e.2.table_name = ei.table_name :=
          congrArg CreationCall.table_name heq2
        apply hnd.1
        rw [hei, ← htab]
        exact List.mem_map.mpr ⟨e, hmem3, rfl⟩
      rw [hrest]
      unfold batchUniqueNames
      rw [List.count_dedup]
      omega
    · have hseg : List.count
          ({ table_name := ei.table_name, entity_name := name2,
             extra_accelerator_id := none } : CreationCall)
          ((batchUniqueNames batch hd.2.field_name).map
            (fun entity_name =>
              ({ table_name := hd.2.table_name, entity_name := entity_name,
                 extra_accelerator_id := none } : CreationCall))) = 0 := by
        apply count_call_other_table
        intro htab
        apply hnd.1
        rw [htab]
        exact List.mem_map.mpr ⟨(ek, ei), htl, rfl⟩
      rw [hseg, ih hnd.2 ek ei htl name2]
      omega

/-- C10 (amended): every creation call of the batch pre-resolution —
detector category included — passes only the name, with
`extra_accelerator_id = none` (the detector-accelerator scoping applies
only to the individual `_create_navigation_entities` path); and for every
category of a structure with pairwise distinct table names, each distinct
non-blank reference name of the batch is created or fetched exactly once,
and names absent from the batch never. -/
theorem C10_batch_dedup_no_detector_scoping
    (entity_structure : List (String × NavEntityInfo))
    (batch : List (String → Option String))
    (hnd : (entity_structure.map (fun e => e.2.table_name)).Nodup) :
    (∀ c ∈ _preprocess_batch_navigation_entities entity_structure batch,
        c.extra_accelerator_id = none)
      ∧ (∀ entity_key entity_info, (entity_key, entity_info) ∈ entity_structure →
          ∀ name2 : String,
            List.count
                ({ table_name := entity_info.table_name, entity_name := name2,
                   extra_accelerator_id := none } : CreationCall)
                (_preprocess_batch_navigation_entities entity_structure batch)
              = if name2 ∈ batch.filterMap
                    (fun dataset_data =>
                      extractEntityName dataset_data entity_info.field_name)
                then 1 else 0) := by
  constructor
  · intro c hc
    obtain ⟨e, _, hc2⟩ := List.mem_flatMap.mp hc
    obtain ⟨n, _, heq⟩ := List.mem_map.mp hc2
    rw [← heq]
  · exact count_preprocess batch entity_structure hnd

/-- Witness for the amended C10 on a concrete two-category batch. -/
theorem C10_batch_dedup_no_detector_scoping_witness :
    ((_get_navigation_entity_structure
        (NavConfigEnv.introspectionFailed ["accelerator", "detector"])).map
          (fun e => e.2.table_name)).Nodup
      ∧ (∀ c ∈ _preprocess_batch_navigation_entities
            (_get_navigation_entity_structure
              (NavConfigEnv.introspectionFailed ["accelerator", "detector"]))
            [demoBatchRecord],
          c.extra_accelerator_id = none) :=
  ⟨by decide,
    (C10_batch_dedup_no_detector_scoping
      (_get_navigation_entity_structure
        (NavConfigEnv.introspectionFailed ["accelerator", "detector"]))
      [demoBatchRecord] (by decide)).1⟩

/-! ## Dataset naming and re-import idempotence (claim C6)

`_generate_dataset_name` returns `process_name` when present and truthy,
and otherwise synthesizes
`f"unnamed_dataset_{timestamp}_{short_uuid}_{idx}"` (the braces surround
the interpolated parts) — `entropy idx` stands for the run-dependent
timestamp-plus-UUID4 fragment for record `idx`.  The main table is a list
of rows keyed by the content UUID, and the upsert resolves conflicts on
that key. -/

/-- Embedding of `_generate_dataset_name`. -/
def _generate_dataset_name (process_name : Option String) (idx : Nat)
    (entropy : Nat → String) : String :=
  match process_name with
  | some dataset_name =>
      if dataset_name = ""
        then "unnamed_dataset_" ++ entropy idx ++ "_" ++ toString idx
        else dataset_name
  | none => "unnamed_dataset_" ++ entropy idx ++ "_" ++ toString idx

/-- ON CONFLICT (uuid) DO UPDATE upsert on the main table: update the
existing row under the key in place, or append a new row. -/
def dbUpsert {ρ : Type} (table : List (String × ρ)) (key : String) (row : ρ) :
    List (String × ρ) :=
  if (table.lookup key).isSome then
    table.map (fun r => if r.1 = key then (r.1, row) else r)
  else table ++ [(key, row)]

/-- One import run over the records (each a pair of the optional
`process_name` and the resolved foreign keys), upserting every record
under its derived identifier; `idx` tracks the record index used by the
fallback name. -/
def importRowsFrom (uuid5 : String → String) (entropy : Nat → String) :
    Nat → List (String × String) →
      List (Option String × List (String × Option Int)) → List (String × String)
  | _, table, [] => table
  | idx, table, r :: rest =>
      importRowsFrom uuid5 entropy (idx + 1)
        (dbUpsert table
          (generate_dataset_uuid uuid5 (_generate_dataset_name r.1 idx entropy) r.2)
          (_generate_dataset_name r.1 idx entropy))
        rest

/-- Import of a whole collection into the main table. -/
def importCollectionRows (uuid5 : String → String) (entropy : Nat → String)
    (table : List (String × String))
    (records : List (Option String × List (String × Option Int))) :
    List (String × String) :=
  importRowsFrom uuid5 entropy 0 table records

/-- A lookup succeeds exactly when the key is bound. -/
theorem lookup_isSome_iff_mem_keys {β : Type} :
    ∀ (l : List (String × β)) (k : String),
      (l.lookup k).isSome = true ↔ k ∈ l.map Prod.fst := by
  intro l
  induction l with
  | nil => intro k; simp [List.lookup]
  | cons hd tl ih =>
    intro k
    obtain ⟨k0, v0⟩ := hd
    by_cases h : k = k0
    · subst h
      simp [List.lookup]
    · simp [List.lookup, beq_eq_false_iff_ne.mpr h, h, ih k]

/-- Upserting an existing key keeps the row count. -/
theorem dbUpsert_length_of_mem {ρ : Type} (table : List (String × ρ)) (key : String)
    (row : ρ) (h : (table.lookup key).isSome = true) :
    (dbUpsert table key row).length = table.length := by
  unfold dbUpsert
  rw [if_pos h, List.length_map]

/-- Upserting an existing key keeps the key column unchanged. -/
theorem dbUpsert_keys_of_mem {ρ : Type} (table : List (String × ρ)) (key : String)
    (row : ρ) (h : (table.lookup key).isSome = true) :
    (dbUpsert table key row).map Prod.fst = table.map Prod.fst := by
  unfold dbUpsert
  rw [if_pos h, List.map_map]
  apply List.map_congr_left
  intro r _
  by_cases hr : r.1 = key
  · simp [Function.comp, hr]
  · simp [Function.comp, hr]

/-- After an upsert the key is bound. -/
theorem dbUpsert_key_mem {ρ : Type} (table : List (String × ρ)) (key : String)
    (row : ρ) : key ∈ (dbUpsert table key row).map Prod.fst := by
  by_cases h : (table.lookup key).isSome = true
  · rw [dbUpsert_keys_of_mem table key row h]
    exact (lookup_isSome_iff_mem_keys table key).mp h
  · unfold dbUpsert
    rw [if_neg h]
    simp

/-- An upsert never unbinds an existing key. -/
theorem dbUpsert_keys_mono {ρ : Type} (table : List (String × ρ)) (key : String)
    (row : ρ) (k2 : String) (h2 : k2 ∈ table.map Prod.fst) :
    k2 ∈ (dbUpsert table key row).map Prod.fst := by
  by_cases h : (table.lookup key).isSome = true
  · rw [dbUpsert_keys_of_mem table key row h]
    exact h2
  · unfold dbUpsert
    rw [if_neg h]
    simp [h2]

/-- When every record carries a non-empty name, an import run is the pure
fold of upserts under name-derived identifiers, independent of the index
and of the run entropy. -/
theorem importRowsFrom_named (uuid5 : String → String) (entropy : Nat → String) :
    ∀ (records : List (Option String × List (String × Option Int)))
      (idx : Nat) (table : List (String × String)),
      (∀ r ∈ records, ∃ s, r.1 = some s ∧ s ≠ "") →
      importRowsFrom uuid5 entropy idx table records
        = records.foldl
            (fun t r =>
              dbUpsert t (generate_dataset_uuid uuid5 (r.1.getD "") r.2) (r.1.getD ""))
            table := by
  intro records
  induction records with
  | nil => intro idx table _; rfl
  | cons r rest ih =>
    intro idx table hnames
    obtain ⟨s, hs, hne⟩ := hnames r (List.mem_cons_self r rest)
    simp only [importRowsFrom, List.foldl_cons]
    have hname : _generate_dataset_name r.1 idx entropy = r.1.getD "" := by
      rw [hs]
      simp [_generate_dataset_name, hne]
    rw [hname]
    exact ih (idx + 1) _ (fun r2 h2 => hnames r2 (List.mem_cons_of_mem r h2))

/-- The upsert fold never unbinds a key. -/
theorem foldl_upsert_keys_mono (uuid5 : String → String) :
    ∀ (records : List (Option String × List (String × Option Int)))
      (table : List (String × String)) (k2 : String),
      k2 ∈ table.map Prod.fst →
      k2 ∈ (records.foldl
          (fun t r2 =>
            dbUpsert t (generate_dataset_uuid uuid5 (r2.1.getD "") r2.2) (r2.1.getD ""))
          table).map Prod.fst := by
  intro records
  induction records with
  | nil => intro table k2 h; exact h
  | cons r0 rest ih =>
    intro table k2 h
    simp only [List.foldl_cons]
    exact ih _ k2 (dbUpsert_keys_mono table _ _ k2 h)

/-- After one import run, every record key is bound in the table. -/
theorem foldl_upsert_keys (uuid5 : String → String) :
    ∀ (records : List (Option String × List (String × Option Int)))
      (table : List (String × String))
      (r : Option String × List (String × Option Int)),
      r ∈ records →
      generate_dataset_uuid uuid5 (r.1.getD "") r.2
        ∈ (records.foldl
            (fun t r2 =>
              dbUpsert t (generate_dataset_uuid uuid5 (r2.1.getD "") r2.2)
                (r2.1.getD ""))
            table).map Prod.fst := by
  intro records
  induction records with
  | nil => intro table r h; cases h
  | cons r0 rest ih =>
    intro table r h
    simp only [List.foldl_cons]
    rcases List.mem_cons.mp h with heq | htl
    · subst heq
      exact foldl_upsert_keys_mono uuid5 rest _ _ (dbUpsert_key_mem table _ _)
    · exact ih _ r htl

/-- A run whose record keys are all bound already leaves the row count
unchanged. -/
theorem foldl_upsert_length_of_keys (uuid5 : String → String) :
    ∀ (records : List (Option String × List (String × Option Int)))
      (table : List (String × String)),
      (∀ r ∈ records,
        generate_dataset_uuid uuid5 (r.1.getD "") r.2 ∈ table.map Prod.fst) →
      (records.foldl
          (fun t r2 =>
            dbUpsert t (generate_dataset_uuid uuid5 (r2.1.getD "") r2.2) (r2.1.getD ""))
          table).length = table.length := by
  intro records
  induction records with
  | nil => intro table _; rfl
  | cons r0 rest ih =>
    intro table hall
    simp only [List.foldl_cons]
    have hk := hall r0 (List.mem_cons_self r0 rest)
    have hsome : (table.lookup (generate_dataset_uuid uuid5 (r0.1.getD "") r0.2)).isSome
        = true := (lookup_isSome_iff_mem_keys table _).mpr hk
    rw [ih _ ?_]
    · exact dbUpsert_length_of_mem table _ _ hsome
    · intro r hr
      rw [dbUpsert_keys_of_mem table _ _ hsome]
      exact hall r (List.mem_cons_of_mem r0 hr)

/-- C6 is refuted for a record without a name: the fallback dataset name
depends on the run timestamp and random UUID4 fragment (the entropy), so a
second import of the same one-record collection derives a fresh identifier
and inserts a second row instead of upserting. -/
theorem C6_counterexample_unnamed_record :
    (importCollectionRows id (fun _ => "b")
        (importCollectionRows id (fun _ => "a") []
          [((none : Option String), ([] : List (String × Option Int)))])
        [((none : Option String), ([] : List (String × Option Int)))]).length
      ≠ (importCollectionRows id (fun _ => "a") []
          [((none : Option String), ([] : List (String × Option Int)))]).length := by
  decide

/-- C6 (amended): provided every record of the collection carries a
non-empty `process_name` (so the fallback naming never fires), the
generated dataset name is the stored name itself — the identifier is then
a pure function of the record name and resolved foreign keys — and
re-importing the collection (with whatever timestamps and randomness
either run sees) leaves exactly as many main-table rows as importing it
once. -/
theorem C6_reimport_idempotent_for_named_records (uuid5 : String → String)
    (entropy1 entropy2 : Nat → String) (table : List (String × String))
    (records : List (Option String × List (String × Option Int)))
    (hnames : ∀ r ∈ records, ∃ s, r.1 = some s ∧ s ≠ "") :
    (∀ (s : String) (idx : Nat) (e : Nat → String), s ≠ "" →
        _generate_dataset_name (some s) idx e = s)
      ∧ (importCollectionRows uuid5 entropy2
            (importCollectionRows uuid5 entropy1 table records) records).length
        = (importCollectionRows uuid5 entropy1 table records).length := by
  constructor
  · intro s idx e hs
    simp [_generate_dataset_name, hs]
  · unfold importCollectionRows
    rw [importRowsFrom_named uuid5 entropy1 records 0 table hnames,
        importRowsFrom_named uuid5 entropy2 records 0 _ hnames]
    apply foldl_upsert_length_of_keys
    intro r hr
    exact foldl_upsert_keys uuid5 records table r hr

/-- Witness for the amended C6: a two-record named collection imported
twice with different entropy. -/
theorem C6_reimport_idempotent_for_named_records_witness :
    (∀ r ∈ [((some "higgs" : Option String), [("campaign_id", (some 1 : Option Int))]),
            ((some "top" : Option String), [("campaign_id", (some 1 : Option Int))])],
        ∃ s, r.1 = some s ∧ s ≠ "")
      ∧ (importCollectionRows id (fun _ => "b")
            (importCollectionRows id (fun _ => "a") []
              [((some "higgs" : Option String), [("campaign_id", (some 1 : Option Int))]),
               ((some "top" : Option String), [("campaign_id", (some 1 : Option Int))])])
            [((some "higgs" : Option String), [("campaign_id", (some 1 : Option Int))]),
             ((some "top" : Option String), [("campaign_id", (some 1 : Option Int))])]).length
        = (importCollectionRows id (fun _ => "a") []
            [((some "higgs" : Option String), [("campaign_id", (some 1 : Option Int))]),
             ((some "top" : Option String), [("campaign_id", (some 1 : Option Int))])]).length :=
  ⟨by decide,
    (C6_reimport_idempotent_for_named_records id (fun _ => "a") (fun _ => "b") []
      [((some "higgs" : Option String), [("campaign_id", (some 1 : Option Int))]),
       ((some "top" : Option String), [("campaign_id", (some 1 : Option Int))])]
      (by decide)).2⟩
